import Mathlib

/-!
# Snake: the simulation core of the game

A shallow embedding of `src/js/snake.js`, `src/js/fruit.js` and the game loop of
`src/js/game.js`.

* JavaScript objects with private fields become structures; a method becomes a function
  from the object state to the new object state.
* A method that would throw a `TypeError` (reading a field of `undefined`, which happens
  when `#bodyParts` is empty) returns `none`.
* Grid coordinates are integers (`Int`); time stamps and `Math.random()` draws are
  rationals (`ℚ`), with exact arithmetic.
* Canvas drawing, sound, DOM updates and `localStorage` are effects outside the modelled
  state and are left out.
-/

namespace SnakeGame

/-! ## Data model -/

/-- An orientation value as the source handles it: the four strings `'up'`, `'down'`,
`'left'`, `'right'` that the code compares against, and `other tag` for any other
JavaScript value (the source never validates the argument of `changeOrientation`). -/
inductive Orientation where
  | up
  | down
  | left
  | right
  | other (tag : Nat)
  deriving DecidableEq, Repr

/-- A grid cell `{ x, y }`. -/
structure Position where
  x : Int
  y : Int
  deriving DecidableEq, Repr

/-- One element of `#bodyParts`: `{ position, orientation }`. -/
structure Segment where
  position : Position
  orientation : Orientation
  deriving DecidableEq, Repr

/-- The private state of a `Snake` object (`#snakeImages` only matters for drawing). -/
structure Snake where
  length : Nat
  bodyParts : List Segment
  lastTailOrientation : Orientation
  directionChanged : Bool
  deriving DecidableEq, Repr

/-! ## `snake.js` -/

/-- The `switch` of the constructor (lines 18-23): the cell of part `i`. For a value that
is none of the four strings the source leaves `partPosition` undefined: `none`. -/
def partPosition (orientation : Orientation) (position : Position) (i : Nat) :
    Option Position :=
  match orientation with
  | .up => some { x := position.x, y := position.y + i }
  | .down => some { x := position.x, y := position.y - i }
  | .left => some { x := position.x + i, y := position.y }
  | .right => some { x := position.x - i, y := position.y }
  | .other _ => none

/-- The constructor `new Snake(length, orientation, position)` (lines 9-26). The result is
`none` when a part would get `position: undefined`, which `Position` does not represent. -/
def Snake.new (length : Nat) (orientation : Orientation) (position : Position) :
    Option Snake :=
  ((List.range length).mapM
      (fun i => (partPosition orientation position i).map
        (fun p => ({ position := p, orientation := orientation } : Segment)))).map
    (fun parts =>
      { length := length
        bodyParts := parts
        lastTailOrientation := orientation
        directionChanged := false })

/-- The `switch (headOrientation)` of `move` (lines 103-108). -/
def step (headOrientation : Orientation) (newHeadPos : Position) : Position :=
  match headOrientation with
  | .up => { newHeadPos with y := newHeadPos.y - 1 }
  | .down => { newHeadPos with y := newHeadPos.y + 1 }
  | .left => { newHeadPos with x := newHeadPos.x - 1 }
  | .right => { newHeadPos with x := newHeadPos.x + 1 }
  | .other _ => newHeadPos

/-- The wrap-around logic of `move` (lines 111-114): four assignments in sequence. -/
def wrap (newHeadPos : Position) : Position :=
  let p1 := if newHeadPos.x < 0 then { newHeadPos with x := 9 } else newHeadPos
  let p2 := if p1.x > 9 then { p1 with x := 0 } else p1
  let p3 := if p2.y < 0 then { p2 with y := 9 } else p2
  if p3.y > 9 then { p3 with y := 0 } else p3

/-- The method `move()` (lines 98-128). With no body part, `this.#bodyParts[0].orientation`
throws: `none`. -/
def Snake.move (s : Snake) : Option Snake :=
  match s.bodyParts with
  | [] => none
  | head :: rest =>
    let headOrientation := head.orientation
    let newHeadPos := wrap (step headOrientation head.position)
    let lastTailOrientation :=
      if (head :: rest).length > 1 then
        ((head :: rest).getD ((head :: rest).length - 2) head).orientation
      else s.lastTailOrientation
    let unshifted := { position := newHeadPos, orientation := headOrientation } :: head :: rest
    some { s with
      bodyParts := unshifted.dropLast
      lastTailOrientation := lastTailOrientation
      directionChanged := false }

/-- The method `changeOrientation(newOrientation)` (lines 131-140). When `#directionChanged`
is set, `&&` short-circuits and nothing is read; otherwise the head is read, which throws
when there is no body part: `none`. -/
def Snake.changeOrientation (s : Snake) (newOrientation : Orientation) : Option Snake :=
  if s.directionChanged then some s
  else
    match s.bodyParts with
    | [] => none
    | head :: rest =>
      if (head.orientation = .up ∧ newOrientation ≠ .down) ∨
          (head.orientation = .down ∧ newOrientation ≠ .up) ∨
          (head.orientation = .left ∧ newOrientation ≠ .right) ∨
          (head.orientation = .right ∧ newOrientation ≠ .left) then
        some { s with
          bodyParts := { head with orientation := newOrientation } :: rest
          directionChanged := true }
      else some s

/-- The method `grow()` (lines 143-147). With no body part, reading `.position` of the
missing last part throws: `none`. -/
def Snake.grow (s : Snake) : Option Snake :=
  match s.bodyParts.getLast? with
  | none => none
  | some last =>
    some { s with
      length := s.length + 1
      bodyParts := s.bodyParts ++
        [{ position := last.position, orientation := s.lastTailOrientation }] }

/-- The `for` loop of `selfCollision` (lines 152-156) over the parts from index 1 on,
returning `true` at the first part on the head's cell. -/
def selfCollisionLoop (head : Segment) : List Segment → Bool
  | [] => false
  | part :: parts =>
    if head.position.x = part.position.x ∧ head.position.y = part.position.y then true
    else selfCollisionLoop head parts

/-- The method `selfCollision()` (lines 150-158). With no body part the loop body never
runs and the result is `false`. -/
def Snake.selfCollision (s : Snake) : Bool :=
  match s.bodyParts with
  | [] => false
  | head :: rest => selfCollisionLoop head rest

/-- The method `getHeadPosition()` (lines 160-162); `none` when it would throw. -/
def Snake.getHeadPosition (s : Snake) : Option Position :=
  s.bodyParts.head?.map (fun part => part.position)

/-- The method `getBodyPositions()` (lines 164-166). -/
def Snake.getBodyPositions (s : Snake) : List Position :=
  s.bodyParts.map (fun part => part.position)

/-! ## Sequences of method calls on a snake -/

/-- One call of a state-changing method of `Snake`. -/
inductive Call where
  | move
  | changeOrientation (newOrientation : Orientation)
  | grow
  deriving DecidableEq, Repr

/-- Perform one call. -/
def Snake.call (s : Snake) : Call → Option Snake
  | .move => s.move
  | .changeOrientation o => s.changeOrientation o
  | .grow => s.grow

/-- Perform a sequence of calls, first to last; `none` once a call throws. -/
def Snake.calls (s : Snake) : List Call → Option Snake
  | [] => some s
  | c :: cs => (s.call c).bind (fun s' => Snake.calls s' cs)

/-- The unit step on the grid that the specification attaches to an orientation:
`(0,-1)` for up, `(0,1)` for down, `(-1,0)` for left and `(1,0)` for right. -/
def unitDelta : Orientation → Int × Int
  | .up => (0, -1)
  | .down => (0, 1)
  | .left => (-1, 0)
  | .right => (1, 0)
  | .other _ => (0, 0)

/-- The reverse of an orientation in the specification's sense: down for up, up for down,
right for left and left for right. A value that is none of the four has no reverse and is
returned as it is. -/
def Orientation.reverse : Orientation → Orientation
  | .up => .down
  | .down => .up
  | .left => .right
  | .right => .left
  | .other tag => .other tag

/-- The value is one of the four strings `'up'`, `'down'`, `'left'`, `'right'`. -/
def Orientation.isDirection (o : Orientation) : Prop :=
  o = .up ∨ o = .down ∨ o = .left ∨ o = .right

instance (o : Orientation) : Decidable o.isDirection := by
  unfold Orientation.isDirection
  infer_instance

/-! ## `fruit.js` -/

/-- The constant `FRUIT_NAMES` (line 2). -/
def FRUIT_NAMES : List String :=
  ["Apple", "Banana", "Grape", "Cherry", "Kiwi", "Lemon", "Orange", "Peach", "Pear",
   "Pineapple", "Strawberry", "Watermelon"]

/-- The private state of a `Fruit` object (`#fruitImages` only matters for drawing).
`name` is `none` for `undefined`. -/
structure Fruit where
  canvasWidth : ℚ
  canvasHeight : ℚ
  position : Position
  name : Option String
  deriving DecidableEq, Repr

/-- The cell computed by `randomPosition` (lines 21-23) from the two values `r1`, `r2`
returned by its two `Math.random()` calls. -/
def randomCell (canvasWidth canvasHeight r1 r2 : ℚ) : Position :=
  { x := Int.floor (r1 * (canvasWidth / 50))
    y := Int.floor (r2 * (canvasHeight / 50)) }

/-- The method `randomPosition()` (lines 19-24). The outcomes of the successive
`Math.random()` calls are supplied as a list, which is consumed from the front; `none`
when the list holds fewer outcomes than the method draws. -/
def Fruit.randomPosition (f : Fruit) : List ℚ → Option (Position × List ℚ)
  | r1 :: r2 :: rnd => some (randomCell f.canvasWidth f.canvasHeight r1 r2, rnd)
  | _ => none

/-- Array indexing `FRUIT_NAMES[randomIndex]`: `undefined` outside the array. -/
def fruitNameAt (randomIndex : Int) : Option String :=
  if 0 ≤ randomIndex then FRUIT_NAMES[randomIndex.toNat]? else none

/-- The method `randomFruitName()` (lines 26-30), drawing one `Math.random()` outcome. -/
def Fruit.randomFruitName (_f : Fruit) : List ℚ → Option (Option String × List ℚ)
  | r :: rnd => some (fruitNameAt (Int.floor (r * (FRUIT_NAMES.length : ℚ))), rnd)
  | [] => none

/-- The constructor `new Fruit(canvasWidth, canvasHeight)` (lines 11-17). -/
def Fruit.new (canvasWidth canvasHeight : ℚ) (rnd : List ℚ) : Option (Fruit × List ℚ) :=
  let f0 : Fruit :=
    { canvasWidth := canvasWidth, canvasHeight := canvasHeight
      position := { x := 0, y := 0 }, name := none }
  (f0.randomPosition rnd).bind fun (position, rnd1) =>
    let f1 := { f0 with position := position }
    (f1.randomFruitName rnd1).map fun (name, rnd2) => ({ f1 with name := name }, rnd2)

/-- The inner `for` loop of `changeFruit` (lines 72-78) as a test: does some element of
`snakePositions` equal `position`? -/
def overlapsWithSnake (snakePositions : List Position) (position : Position) : Bool :=
  match snakePositions with
  | [] => false
  | p :: ps =>
    if p.x = position.x ∧ p.y = position.y then true else overlapsWithSnake ps position

/-- The `while (overlapsWithSnake)` loop of `changeFruit` (lines 68-79), entered with the
current candidate `position`: when the scan finds an overlap a new candidate is drawn
(two `Math.random()` outcomes) and the scan starts again; otherwise the candidate is the
result. `none` when the supplied outcomes run out while every candidate so far overlaps:
the loop has not returned on them. -/
def changeFruitLoop (canvasWidth canvasHeight : ℚ) (snakePositions : List Position)
    (position : Position) (rnd : List ℚ) : Option (Position × List ℚ) :=
  match rnd with
  | r1 :: r2 :: rnd1 =>
    if overlapsWithSnake snakePositions position then
      changeFruitLoop canvasWidth canvasHeight snakePositions
        (randomCell canvasWidth canvasHeight r1 r2) rnd1
    else some (position, r1 :: r2 :: rnd1)
  | rnd0 =>
    if overlapsWithSnake snakePositions position then none else some (position, rnd0)

/-- The method `changeFruit(snakePositions)` (lines 64-83). -/
def Fruit.changeFruit (f : Fruit) (snakePositions : List Position) (rnd : List ℚ) :
    Option (Fruit × List ℚ) :=
  (f.randomPosition rnd).bind fun (position, rnd1) =>
    (changeFruitLoop f.canvasWidth f.canvasHeight snakePositions position rnd1).bind
      fun (position1, rnd2) =>
        let f1 := { f with position := position1 }
        (f1.randomFruitName rnd2).map fun (name, rnd3) => ({ f1 with name := name }, rnd3)

/-- The candidate cells that successive `randomPosition()` calls yield on the outcomes
`rnd`, two outcomes per candidate, in the order in which they are drawn. -/
def drawnCandidates (canvasWidth canvasHeight : ℚ) : List ℚ → List Position
  | r1 :: r2 :: rnd =>
    randomCell canvasWidth canvasHeight r1 r2 :: drawnCandidates canvasWidth canvasHeight rnd
  | _ => []

/-- The method `getPosition()` (lines 85-87). -/
def Fruit.getPosition (f : Fruit) : Position := f.position

/-! ## `game.js` -/

/-- The constant `SNAKE_SPEED` (line 6): moves per second. -/
def SNAKE_SPEED : ℚ := 2

/-- The private state of a `Game` object that the simulation reads and writes. The
canvas, the sounds, the timer and the animation-frame request id are display and
scheduling resources and are not part of it. -/
structure Game where
  gameEnd : Bool
  snakeSpeed : ℚ
  lastRenderTime : ℚ
  snake : Snake
  fruit : Fruit
  score : Int
  deriving DecidableEq, Repr

/-- The constructor `new Game(snakeSpeed, canvas)` (lines 71-87), with the canvas given by
its width and height. -/
def Game.new (snakeSpeed canvasWidth canvasHeight : ℚ) (rnd : List ℚ) :
    Option (Game × List ℚ) :=
  (Snake.new 4 .left { x := 7, y := 4 }).bind fun snake =>
    (Fruit.new canvasWidth canvasHeight rnd).map fun (fruit, rnd1) =>
      ({ gameEnd := false, snakeSpeed := snakeSpeed, lastRenderTime := 0
         snake := snake, fruit := fruit, score := 0 }, rnd1)

/-- The method `checkFruitCollision(snakeHead, fruitPosition)` (lines 210-212). -/
def checkFruitCollision (snakeHead fruitPosition : Position) : Bool :=
  snakeHead.x = fruitPosition.x && snakeHead.y = fruitPosition.y

/-- The method `gameOver()` (lines 244-254): of the modelled state it sets `#gameEnd`. -/
def Game.gameOver (g : Game) : Game := { g with gameEnd := true }

/-- The method `endGame()` (lines 235-241). -/
def Game.endGame (g : Game) : Game := { g with gameEnd := true, score := 0 }

/-- The test `secondsSinceLastRender < 1 / this.#snakeSpeed` (line 181). In JavaScript
`1 / 0` is `Infinity`, above every finite number, whereas `1 / 0 = 0` in `ℚ`; the zero
divisor is therefore spelled out. -/
def frameTooEarly (secondsSinceLastRender snakeSpeed : ℚ) : Bool :=
  if snakeSpeed = 0 then true else decide (secondsSinceLastRender < 1 / snakeSpeed)

/-- The method `gameLoop(currentTime)` (lines 172-207). `rnd` holds the outcomes of the
`Math.random()` calls still to come; the result is `none` when a call throws or when
`changeFruit` does not return on these outcomes. The assignment
`this.#snake.directionChanged = false` (line 188) writes a public property that nothing
reads, not the private `#directionChanged`. -/
def Game.gameLoop (g : Game) (currentTime : ℚ) (rnd : List ℚ) : Option (Game × List ℚ) :=
  if g.gameEnd then some (g, rnd)
  else
    let secondsSinceLastRender := (currentTime - g.lastRenderTime) / 1000
    if frameTooEarly secondsSinceLastRender g.snakeSpeed then some (g, rnd)
    else
      let g1 := { g with lastRenderTime := currentTime }
      g1.snake.move.bind fun snake1 =>
        let g2 := { g1 with snake := snake1 }
        if g2.snake.selfCollision then some (g2.gameOver, rnd)
        else
          g2.snake.getHeadPosition.bind fun snakeHead =>
            if checkFruitCollision snakeHead g2.fruit.getPosition then
              g2.snake.grow.bind fun snake2 =>
                let g3 := { g2 with snake := snake2, score := g2.score + 1 }
                (g3.fruit.changeFruit g3.snake.getBodyPositions rnd).map
                  fun (fruit1, rnd1) => ({ g3 with fruit := fruit1 }, rnd1)
            else some (g2, rnd)

/-- The snake `new Snake(4, 'left', { x: 7, y: 4 })` of a new game, written out. -/
def newGameSnake : Snake :=
  { length := 4
    bodyParts := [⟨⟨7, 4⟩, .left⟩, ⟨⟨8, 4⟩, .left⟩, ⟨⟨9, 4⟩, .left⟩, ⟨⟨10, 4⟩, .left⟩]
    lastTailOrientation := .left
    directionChanged := false }

/-- A game state right after construction at two moves per second on the 500 x 500
canvas, with the fruit at `position`. -/
def newGameWithFruitAt (position : Position) : Game :=
  { gameEnd := false, snakeSpeed := SNAKE_SPEED, lastRenderTime := 0, snake := newGameSnake
    fruit := { canvasWidth := 500, canvasHeight := 500, position := position,
               name := some "Apple" }
    score := 0 }

/-- A running game at two moves per second whose snake of four parts lies in row 4 with
its head at `(x, 4)`, heading left, with the fruit at `(0, 0)` and the last tick at
`lastRenderTime`. -/
def straightGame (lastRenderTime : ℚ) (x : Int) : Game :=
  { gameEnd := false, snakeSpeed := SNAKE_SPEED, lastRenderTime := lastRenderTime
    snake :=
      { length := 4
        bodyParts :=
          [⟨⟨x, 4⟩, .left⟩, ⟨⟨x + 1, 4⟩, .left⟩, ⟨⟨x + 2, 4⟩, .left⟩, ⟨⟨x + 3, 4⟩, .left⟩]
        lastTailOrientation := .left
        directionChanged := false }
    fruit := { canvasWidth := 500, canvasHeight := 500, position := ⟨0, 0⟩,
               name := some "Apple" }
    score := 0 }

/-- The call `gameLoop(currentTime)` in state `g` gets past both early returns (lines
173-181), and so runs the simulation tick of lines 182-206. -/
def Game.performsTick (g : Game) (currentTime : ℚ) : Bool :=
  !g.gameEnd && !frameTooEarly ((currentTime - g.lastRenderTime) / 1000) g.snakeSpeed

/-- Successive animation-frame callbacks: `gameLoop` is called with each time stamp in
turn; the result lists the game state after each call. -/
def Game.gameLoops (g : Game) (rnd : List ℚ) : List ℚ → Option (List Game)
  | [] => some []
  | currentTime :: times =>
    (g.gameLoop currentTime rnd).bind fun (g1, rnd1) =>
      (Game.gameLoops g1 rnd1 times).map fun states => g1 :: states

/-- The `keydown` listener installed by `setupKeyControls` (lines 125-142), applied to
the event's `key`; a key other than the four arrows matches no `case`. -/
def Game.keydown (g : Game) (key : String) : Option Game :=
  if key = "ArrowUp" then
    (g.snake.changeOrientation .up).map fun snake => { g with snake := snake }
  else if key = "ArrowDown" then
    (g.snake.changeOrientation .down).map fun snake => { g with snake := snake }
  else if key = "ArrowLeft" then
    (g.snake.changeOrientation .left).map fun snake => { g with snake := snake }
  else if key = "ArrowRight" then
    (g.snake.changeOrientation .right).map fun snake => { g with snake := snake }
  else some g

/-- The `switch (e.type)` of the swipe listener (lines 152-165); with no matching `case`
the variable `direction` stays `undefined`, a value that is none of the four strings. -/
def swipeDirection (type : String) : Orientation :=
  if type = "swipeleft" then .left
  else if type = "swiperight" then .right
  else if type = "swipeup" then .up
  else if type = "swipedown" then .down
  else .other 0

/-- The swipe listener installed by `setupTouchControls` (lines 150-167), applied to the
event's `type`. -/
def Game.swipe (g : Game) (type : String) : Option Game :=
  (g.snake.changeOrientation (swipeDirection type)).map fun snake => { g with snake := snake }

/-- The cell lies on the 10 x 10 board: `0 ≤ x < 10` and `0 ≤ y < 10`. -/
def Position.inGrid (p : Position) : Prop :=
  0 ≤ p.x ∧ p.x < 10 ∧ 0 ≤ p.y ∧ p.y < 10

instance (p : Position) : Decidable p.inGrid := by
  unfold Position.inGrid
  infer_instance

/-- The number of distinct cells in a list of positions. -/
def distinctCount (positions : List Position) : Nat :=
  positions.dedup.length

/-- The relation between a new head cell and the head cell it was moved from: `move()`
computes `next` from `previous` for some head orientation. -/
def IsNextHead (next previous : Position) : Prop :=
  ∃ o : Orientation, next = wrap (step o previous)

/-- A snake of five parts on the board that has turned up, right and then down, so that
its next `move()` puts the head on the cell `(5, 6)` of its own fourth part. -/
def turningSnake : Snake :=
  { length := 5
    bodyParts := [⟨⟨5, 5⟩, .down⟩, ⟨⟨4, 5⟩, .right⟩, ⟨⟨4, 6⟩, .up⟩, ⟨⟨5, 6⟩, .left⟩,
                  ⟨⟨6, 6⟩, .left⟩]
    lastTailOrientation := .left
    directionChanged := true }

/-- A running game at two moves per second with the snake `turningSnake`, one fruit
eaten so far, and the fruit at `(0, 0)`. -/
def turningGame : Game :=
  { gameEnd := false, snakeSpeed := SNAKE_SPEED, lastRenderTime := 0, snake := turningSnake
    fruit := { canvasWidth := 500, canvasHeight := 500, position := ⟨0, 0⟩,
               name := some "Apple" }
    score := 1 }

/-! ## Facts about `move`, `changeOrientation` and `grow` -/

theorem move_eq_some (s : Snake) (head : Segment) (rest : List Segment)
    (hbody : s.bodyParts = head :: rest) :
    s.move = some { s with
      bodyParts :=
        ({ position := wrap (step head.orientation head.position)
           orientation := head.orientation } :: head :: rest).dropLast
      lastTailOrientation :=
        if (head :: rest).length > 1 then
          ((head :: rest).getD ((head :: rest).length - 2) head).orientation
        else s.lastTailOrientation
      directionChanged := false } := by
  unfold Snake.move
  rw [hbody]

theorem move_length (s s' : Snake) (h : s.move = some s') :
    s'.bodyParts.length = s.bodyParts.length := by
  cases hb : s.bodyParts with
  | nil => simp [Snake.move, hb] at h
  | cons head rest =>
    rw [move_eq_some s head rest hb] at h
    cases h
    simp

theorem move_directionChanged (s s' : Snake) (h : s.move = some s') :
    s'.directionChanged = false := by
  cases hb : s.bodyParts with
  | nil => simp [Snake.move, hb] at h
  | cons head rest =>
    rw [move_eq_some s head rest hb] at h
    cases h
    rfl

theorem changeOrientation_of_changed (s : Snake) (o : Orientation)
    (h : s.directionChanged = true) : s.changeOrientation o = some s := by
  simp [Snake.changeOrientation, h]

theorem changeOrientation_total (s : Snake) (o : Orientation) (hne : s.bodyParts ≠ []) :
    ∃ s', s.changeOrientation o = some s' ∧ s'.bodyParts.length = s.bodyParts.length := by
  cases hb : s.bodyParts with
  | nil => exact absurd hb hne
  | cons head rest =>
    unfold Snake.changeOrientation
    split
    · exact ⟨s, rfl, by rw [hb]⟩
    · rw [hb]
      dsimp only
      split
      · exact ⟨_, rfl, rfl⟩
      · exact ⟨s, rfl, by rw [hb]⟩

theorem move_total (s : Snake) (hne : s.bodyParts ≠ []) :
    ∃ s', s.move = some s' ∧ s'.bodyParts.length = s.bodyParts.length := by
  cases hb : s.bodyParts with
  | nil => exact absurd hb hne
  | cons head rest =>
    have h := move_eq_some s head rest hb
    exact ⟨_, h, by rw [move_length s _ h, hb]⟩

/-- Claim C1. For a snake with at least one body part, every finite sequence of `move()` and
`changeOrientation()` calls without a `grow()` runs to the end without throwing, and the
number of body parts after it equals the number before it. -/
theorem calls_without_grow_length (s : Snake) (cs : List Call)
    (hne : s.bodyParts ≠ []) (hgrow : Call.grow ∉ cs) :
    ∃ s', s.calls cs = some s' ∧ s'.bodyParts.length = s.bodyParts.length := by
  induction cs generalizing s with
  | nil => exact ⟨s, rfl, rfl⟩
  | cons c cs ih =>
    have hc : c ≠ Call.grow := fun h => hgrow (by simp [h])
    have hcs : Call.grow ∉ cs := fun h => hgrow (List.mem_cons_of_mem _ h)
    have hstep : ∃ s1, s.call c = some s1 ∧ s1.bodyParts.length = s.bodyParts.length := by
      cases c with
      | move => exact move_total s hne
      | changeOrientation o => exact changeOrientation_total s o hne
      | grow => exact absurd rfl hc
    obtain ⟨s1, h1, hlen1⟩ := hstep
    have hne1 : s1.bodyParts ≠ [] := by
      intro h
      rw [h] at hlen1
      exact hne (List.length_eq_zero.mp hlen1.symm)
    obtain ⟨s2, h2, hlen2⟩ := ih s1 hne1 hcs
    refine ⟨s2, ?_, by rw [hlen2, hlen1]⟩
    simp [Snake.calls, h1, h2]

theorem calls_without_grow_length_witness :
    (Snake.mk 2 [⟨⟨0, 4⟩, .left⟩, ⟨⟨1, 4⟩, .left⟩] .left false).bodyParts ≠ [] ∧
    Call.grow ∉ [Call.changeOrientation .up, Call.move, Call.move] ∧
    ∃ s', (Snake.mk 2 [⟨⟨0, 4⟩, .left⟩, ⟨⟨1, 4⟩, .left⟩] .left false).calls
        [Call.changeOrientation .up, Call.move, Call.move] = some s' ∧
      s'.bodyParts.length =
        (Snake.mk 2 [⟨⟨0, 4⟩, .left⟩, ⟨⟨1, 4⟩, .left⟩] .left false).bodyParts.length :=
  ⟨by decide, by decide, calls_without_grow_length _ _ (by decide) (by decide)⟩

theorem move_getHeadPosition (s : Snake) (head : Segment) (rest : List Segment)
    (hbody : s.bodyParts = head :: rest) :
    ∃ s', s.move = some s' ∧
      s'.getHeadPosition = some (wrap (step head.orientation head.position)) := by
  refine ⟨_, move_eq_some s head rest hbody, ?_⟩
  simp [Snake.getHeadPosition, List.dropLast]

theorem wrap_step_eq (x y : Int) (o : Orientation) (hx : 0 ≤ x ∧ x ≤ 9)
    (hy : 0 ≤ y ∧ y ≤ 9) (ho : o.isDirection) :
    wrap (step o ⟨x, y⟩) = ⟨(x + (unitDelta o).1) % 10, (y + (unitDelta o).2) % 10⟩ := by
  obtain ⟨hx0, hx9⟩ := hx
  obtain ⟨hy0, hy9⟩ := hy
  rcases ho with h | h | h | h <;> subst h <;> dsimp only [step, wrap, unitDelta] <;>
    (split_ifs <;> (try dsimp only at *) <;> simp only [Position.mk.injEq] <;> omega)

/-- Claim C2. A snake whose head is at `(x, y)` with `0 ≤ x ≤ 9`, `0 ≤ y ≤ 9` and whose head
orientation is up, down, left or right has, after `move()`, its head at
`((x + dx) mod 10, (y + dy) mod 10)` for the unit step `(dx, dy)` of that orientation. In
particular `x = 0` moving left gives `x = 9`, `x = 9` moving right gives `x = 0`, `y = 0`
moving up gives `y = 9` and `y = 9` moving down gives `y = 0`. -/
theorem move_head_wraps (s : Snake) (x y : Int) (o : Orientation) (rest : List Segment)
    (hbody : s.bodyParts = ⟨⟨x, y⟩, o⟩ :: rest)
    (hx : 0 ≤ x ∧ x ≤ 9) (hy : 0 ≤ y ∧ y ≤ 9) (ho : o.isDirection) :
    ∃ s', s.move = some s' ∧
      s'.getHeadPosition =
        some ⟨(x + (unitDelta o).1) % 10, (y + (unitDelta o).2) % 10⟩ ∧
      (o = .left → x = 0 → s'.getHeadPosition = some ⟨9, y⟩) ∧
      (o = .right → x = 9 → s'.getHeadPosition = some ⟨0, y⟩) ∧
      (o = .up → y = 0 → s'.getHeadPosition = some ⟨x, 9⟩) ∧
      (o = .down → y = 9 → s'.getHeadPosition = some ⟨x, 0⟩) := by
  obtain ⟨s', hmove, hhead⟩ := move_getHeadPosition s _ rest hbody
  have hpos := wrap_step_eq x y o hx hy ho
  dsimp only at hhead
  rw [hpos] at hhead
  refine ⟨s', hmove, hhead, ?_, ?_, ?_, ?_⟩ <;> intro h1 h2 <;> subst h1 <;> subst h2 <;>
    rw [hhead] <;> simp only [unitDelta, Option.some.injEq, Position.mk.injEq] <;> omega

theorem move_head_wraps_witness :
    (Snake.mk 2 [⟨⟨0, 4⟩, .left⟩, ⟨⟨1, 4⟩, .left⟩] .left false).bodyParts =
        ⟨⟨0, 4⟩, .left⟩ :: [⟨⟨1, 4⟩, .left⟩] ∧
    ∃ s', (Snake.mk 2 [⟨⟨0, 4⟩, .left⟩, ⟨⟨1, 4⟩, .left⟩] .left false).move = some s' ∧
      s'.getHeadPosition = some ⟨9, 4⟩ := by
  refine ⟨rfl, ?_⟩
  obtain ⟨s', h1, _, h3, _⟩ :=
    move_head_wraps (Snake.mk 2 [⟨⟨0, 4⟩, .left⟩, ⟨⟨1, 4⟩, .left⟩] .left false) 0 4 .left
      [⟨⟨1, 4⟩, .left⟩] rfl (by decide) (by decide) (by decide)
  exact ⟨s', h1, h3 rfl rfl⟩

theorem selfCollisionLoop_iff (head : Segment) (parts : List Segment) :
    selfCollisionLoop head parts = true ↔
      ∃ (j : Nat) (part : Segment), parts[j]? = some part ∧
        part.position.x = head.position.x ∧ part.position.y = head.position.y := by
  induction parts with
  | nil => simp [selfCollisionLoop]
  | cons p ps ih =>
    unfold selfCollisionLoop
    split
    · rename_i h
      simp only [true_iff]
      exact ⟨0, p, by simp, h.1.symm, h.2.symm⟩
    · rename_i h
      rw [ih]
      constructor
      · rintro ⟨j, part, hj, hxy⟩
        exact ⟨j + 1, part, by simpa using hj, hxy⟩
      · rintro ⟨j, part, hj, hxy⟩
        cases j with
        | zero =>
          simp only [List.getElem?_cons_zero, Option.some.injEq] at hj
          subst hj
          exact absurd ⟨hxy.1.symm, hxy.2.symm⟩ h
        | succ j => exact ⟨j, part, by simpa using hj, hxy⟩

/-- Claim C3. For a snake with at least one body part, `selfCollision()` returns `true` if and
only if some body part at an index `i ≥ 1` has the same `x` and the same `y` as the head
(index 0); it returns `false` for every snake with exactly one body part. -/
theorem selfCollision_iff (s : Snake) (head : Segment) (hhead : s.bodyParts[0]? = some head) :
    (s.selfCollision = true ↔
      ∃ (i : Nat) (part : Segment), 1 ≤ i ∧ s.bodyParts[i]? = some part ∧
        part.position.x = head.position.x ∧ part.position.y = head.position.y) ∧
    (s.bodyParts.length = 1 → s.selfCollision = false) := by
  cases hb : s.bodyParts with
  | nil => simp [hb] at hhead
  | cons h0 rest =>
    rw [hb] at hhead
    simp only [List.getElem?_cons_zero, Option.some.injEq] at hhead
    subst hhead
    have hsc : s.selfCollision = selfCollisionLoop h0 rest := by
      simp [Snake.selfCollision, hb]
    constructor
    · rw [hsc, selfCollisionLoop_iff]
      constructor
      · rintro ⟨j, part, hj, hxy⟩
        exact ⟨j + 1, part, by omega, by simpa using hj, hxy⟩
      · rintro ⟨i, part, hi, hpart, hxy⟩
        obtain ⟨j, rfl⟩ : ∃ j, i = j + 1 := ⟨i - 1, by omega⟩
        exact ⟨j, part, by simpa using hpart, hxy⟩
    · intro hlen
      have hrest : rest = [] := by
        cases rest with
        | nil => rfl
        | cons a l => simp at hlen
      rw [hsc, hrest]
      rfl

theorem selfCollision_iff_witness :
    (Snake.mk 3 [⟨⟨2, 2⟩, .up⟩, ⟨⟨2, 3⟩, .up⟩, ⟨⟨2, 2⟩, .left⟩] .left false).bodyParts[0]? =
        some ⟨⟨2, 2⟩, .up⟩ ∧
    (Snake.mk 3 [⟨⟨2, 2⟩, .up⟩, ⟨⟨2, 3⟩, .up⟩, ⟨⟨2, 2⟩, .left⟩] .left false).selfCollision
        = true ∧
    ∃ (i : Nat) (part : Segment), 1 ≤ i ∧
      (Snake.mk 3 [⟨⟨2, 2⟩, .up⟩, ⟨⟨2, 3⟩, .up⟩, ⟨⟨2, 2⟩, .left⟩] .left false).bodyParts[i]?
        = some part ∧
      part.position.x = (2 : Int) ∧ part.position.y = (2 : Int) :=
  ⟨rfl, by decide,
    ((selfCollision_iff
      (Snake.mk 3 [⟨⟨2, 2⟩, .up⟩, ⟨⟨2, 3⟩, .up⟩, ⟨⟨2, 2⟩, .left⟩] .left false)
      ⟨⟨2, 2⟩, .up⟩ rfl).1).mp (by decide)⟩

theorem changeOrientation_eq (s : Snake) (head : Segment) (rest : List Segment)
    (hbody : s.bodyParts = head :: rest) (hflag : s.directionChanged = false)
    (ho : head.orientation.isDirection) (r : Orientation) :
    s.changeOrientation r =
      if r = head.orientation.reverse then some s
      else some { s with
        bodyParts := { head with orientation := r } :: rest
        directionChanged := true } := by
  unfold Snake.changeOrientation
  rw [hbody, hflag]
  rcases ho with h | h | h | h <;> simp only [h, Orientation.reverse] <;>
    split_ifs <;> simp_all

/-- Claim C4. For a snake with at least one body part whose head orientation `o` is one of
up, down, left, right, and for either value of the direction-changed flag,
`changeOrientation(reverse(o))` returns without throwing and leaves the whole snake state
unchanged: the head orientation, every body part and the direction-changed flag. -/
theorem changeOrientation_reverse_noop (s : Snake) (head : Segment) (rest : List Segment)
    (hbody : s.bodyParts = head :: rest) (ho : head.orientation.isDirection) :
    s.changeOrientation head.orientation.reverse = some s := by
  cases hflag : s.directionChanged with
  | true => exact changeOrientation_of_changed s _ hflag
  | false =>
    rw [changeOrientation_eq s head rest hbody hflag ho]
    simp

theorem changeOrientation_reverse_noop_witness :
    (Snake.mk 2 [⟨⟨3, 4⟩, .up⟩, ⟨⟨3, 5⟩, .up⟩] .up false).changeOrientation .down =
        some (Snake.mk 2 [⟨⟨3, 4⟩, .up⟩, ⟨⟨3, 5⟩, .up⟩] .up false) ∧
    (Snake.mk 2 [⟨⟨3, 4⟩, .right⟩, ⟨⟨2, 4⟩, .up⟩] .up true).changeOrientation .left =
        some (Snake.mk 2 [⟨⟨3, 4⟩, .right⟩, ⟨⟨2, 4⟩, .up⟩] .up true) :=
  ⟨changeOrientation_reverse_noop (Snake.mk 2 [⟨⟨3, 4⟩, .up⟩, ⟨⟨3, 5⟩, .up⟩] .up false)
      ⟨⟨3, 4⟩, .up⟩ [⟨⟨3, 5⟩, .up⟩] rfl (by decide),
    changeOrientation_reverse_noop (Snake.mk 2 [⟨⟨3, 4⟩, .right⟩, ⟨⟨2, 4⟩, .up⟩] .up true)
      ⟨⟨3, 4⟩, .right⟩ [⟨⟨2, 4⟩, .up⟩] rfl (by decide)⟩

theorem new_directionChanged (n : Nat) (o : Orientation) (p : Position) (s : Snake)
    (h : Snake.new n o p = some s) : s.directionChanged = false := by
  unfold Snake.new at h
  simp only [Option.map_eq_some'] at h
  obtain ⟨parts, _, rfl⟩ := h
  rfl

theorem requests_of_changed (s : Snake) (requests : List Orientation)
    (h : s.directionChanged = true) :
    s.calls (requests.map Call.changeOrientation) = some s := by
  induction requests with
  | nil => rfl
  | cons r rs ih =>
    simp [Snake.calls, Snake.call, changeOrientation_of_changed s r h, ih]

theorem requests_eq (s : Snake) (head : Segment) (rest : List Segment)
    (hbody : s.bodyParts = head :: rest) (hflag : s.directionChanged = false)
    (ho : head.orientation.isDirection) (requests : List Orientation) :
    s.calls (requests.map Call.changeOrientation) =
      some (match requests.find? (fun r => decide (r ≠ head.orientation.reverse)) with
        | none => s
        | some r => { s with
            bodyParts := { head with orientation := r } :: rest
            directionChanged := true }) := by
  induction requests with
  | nil => rfl
  | cons r rs ih =>
    simp only [List.map_cons, Snake.calls, Snake.call]
    rw [changeOrientation_eq s head rest hbody hflag ho r]
    by_cases hr : r = head.orientation.reverse
    · simp only [hr, if_true, Option.some_bind]
      rw [← hr, ih]
      simp [List.find?, hr]
    · simp only [hr, if_false, Option.some_bind]
      rw [requests_of_changed _ rs rfl]
      simp [List.find?, hr]

theorem changeOrientation_of_not_isDirection (s : Snake) (head : Segment)
    (rest : List Segment) (r : Orientation) (hbody : s.bodyParts = head :: rest)
    (ho : ¬ head.orientation.isDirection) : s.changeOrientation r = some s := by
  unfold Snake.changeOrientation
  rw [hbody]
  have h1 : head.orientation ≠ .up := fun h => ho (Or.inl h)
  have h2 : head.orientation ≠ .down := fun h => ho (Or.inr (Or.inl h))
  have h3 : head.orientation ≠ .left := fun h => ho (Or.inr (Or.inr (Or.inl h)))
  have h4 : head.orientation ≠ .right := fun h => ho (Or.inr (Or.inr (Or.inr h)))
  simp [h1, h2, h3, h4]

theorem requests_of_not_isDirection (s : Snake) (head : Segment) (rest : List Segment)
    (requests : List Orientation) (hbody : s.bodyParts = head :: rest)
    (ho : ¬ head.orientation.isDirection) :
    s.calls (requests.map Call.changeOrientation) = some s := by
  induction requests with
  | nil => rfl
  | cons r rs ih =>
    simp [Snake.calls, Snake.call, changeOrientation_of_not_isDirection s head rest r hbody ho,
      ih]

/-- Claim C5, as stated, fails on the code: the guard of `changeOrientation` accepts a
request only when the head orientation is one of the four. The snake
`new Snake(1, 'up', {x: 3, y: 4})`, after an accepted request that is none of the four and
a `move()`, has just completed `move()` with a head orientation that has no reverse. The
request left is then the first request that is not the reverse of the head orientation,
yet it is refused: the head orientation stays as it was. -/
theorem changeOrientation_once_per_tick_counterexample :
    ∃ (s0 s1 s : Snake) (head : Segment) (s' : Snake) (head' : Segment),
      Snake.new 1 .up ⟨3, 4⟩ = some s0 ∧ s0.changeOrientation (.other 0) = some s1 ∧
      s1.move = some s ∧ s.bodyParts = [head] ∧ head.orientation = .other 0 ∧
      ([Orientation.left].find? (fun r => decide (r ≠ head.orientation.reverse))).getD
        head.orientation = .left ∧
      s.calls ([Orientation.left].map Call.changeOrientation) = some s' ∧
      s'.bodyParts = [head'] ∧ head'.orientation = .other 0 ∧
      head'.orientation ≠ .left :=
  ⟨Snake.mk 1 [⟨⟨3, 4⟩, .up⟩] .up false, Snake.mk 1 [⟨⟨3, 4⟩, .other 0⟩] .up true,
    Snake.mk 1 [⟨⟨3, 4⟩, .other 0⟩] .up false, ⟨⟨3, 4⟩, .other 0⟩,
    Snake.mk 1 [⟨⟨3, 4⟩, .other 0⟩] .up false, ⟨⟨3, 4⟩, .other 0⟩,
    by decide, by decide, by decide, rfl, rfl, by decide, by decide, rfl, rfl, by decide⟩

/-- Claim C5, amended. Take a snake with at least one body part and any sequence of
`changeOrientation` requests issued before the next `move()`. When the snake has just been
constructed or has just completed `move()` and its head orientation is one of up, down,
left, right, the requests all return, and afterwards the head orientation is the first
request of the sequence that is not the reverse of the head orientation at the start (the
starting orientation if there is none), the rest of the head and of the body being as
before; every request after that first accepted one has no effect: the state after any
initial part of the sequence that contains an accepted request is already the state after
the whole sequence. When the head orientation is none of the four, every request is
refused and the snake is unchanged. -/
theorem changeOrientation_once_per_tick (s : Snake) (head : Segment) (rest : List Segment)
    (requests : List Orientation) (hbody : s.bodyParts = head :: rest) :
    ((∃ n o p, Snake.new n o p = some s) ∨ (∃ s0 : Snake, s0.move = some s) →
      head.orientation.isDirection →
      (∃ s', s.calls (requests.map Call.changeOrientation) = some s' ∧
        s'.bodyParts =
          { head with orientation :=
              ((requests.find? (fun r => decide (r ≠ head.orientation.reverse))).getD
                head.orientation) } :: rest) ∧
      (∀ before after : List Orientation, requests = before ++ after →
        (∃ r ∈ before, r ≠ head.orientation.reverse) →
        s.calls (before.map Call.changeOrientation) =
          s.calls (requests.map Call.changeOrientation))) ∧
    (¬ head.orientation.isDirection →
      s.calls (requests.map Call.changeOrientation) = some s) := by
  refine ⟨?_, fun ho => requests_of_not_isDirection s head rest requests hbody ho⟩
  intro hfresh ho
  have hflag : s.directionChanged = false := by
    rcases hfresh with ⟨n, o, p, h⟩ | ⟨s0, h⟩
    · exact new_directionChanged n o p s h
    · exact move_directionChanged s0 s h
  constructor
  · refine ⟨_, requests_eq s head rest hbody hflag ho requests, ?_⟩
    cases hfind : requests.find? (fun r => decide (r ≠ head.orientation.reverse)) with
    | none => simpa using hbody
    | some r => rfl
  · rintro before after rfl ⟨r, hr, hne⟩
    rw [requests_eq s head rest hbody hflag ho before,
      requests_eq s head rest hbody hflag ho (before ++ after)]
    have hsome : ∃ a, before.find? (fun r => decide (r ≠ head.orientation.reverse)) = some a := by
      cases hfind : before.find? (fun r => decide (r ≠ head.orientation.reverse)) with
      | some a => exact ⟨a, rfl⟩
      | none =>
        rw [List.find?_eq_none] at hfind
        exact absurd (hfind r hr) (by simpa using hne)
    obtain ⟨a, ha⟩ := hsome
    rw [List.find?_append, ha]
    rfl

theorem changeOrientation_once_per_tick_witness :
    (Snake.mk 2 [⟨⟨3, 4⟩, .up⟩, ⟨⟨3, 5⟩, .up⟩] .up false).bodyParts =
        ⟨⟨3, 4⟩, .up⟩ :: [⟨⟨3, 5⟩, .up⟩] ∧
    ((∃ n o p, Snake.new n o p = some (Snake.mk 2 [⟨⟨3, 4⟩, .up⟩, ⟨⟨3, 5⟩, .up⟩] .up false)) ∨
      (∃ s0 : Snake, s0.move = some (Snake.mk 2 [⟨⟨3, 4⟩, .up⟩, ⟨⟨3, 5⟩, .up⟩] .up false))) ∧
    (Orientation.up).isDirection ∧
    ∃ s', (Snake.mk 2 [⟨⟨3, 4⟩, .up⟩, ⟨⟨3, 5⟩, .up⟩] .up false).calls
        ([Orientation.down, .left, .right, .up].map Call.changeOrientation) = some s' ∧
      s'.bodyParts = [⟨⟨3, 4⟩, .left⟩, ⟨⟨3, 5⟩, .up⟩] :=
  ⟨rfl, Or.inl ⟨2, .up, ⟨3, 4⟩, by decide⟩, by decide,
    ((changeOrientation_once_per_tick (Snake.mk 2 [⟨⟨3, 4⟩, .up⟩, ⟨⟨3, 5⟩, .up⟩] .up false)
      ⟨⟨3, 4⟩, .up⟩ [⟨⟨3, 5⟩, .up⟩] [.down, .left, .right, .up] rfl).1
      (Or.inl ⟨2, .up, ⟨3, 4⟩, by decide⟩) (by decide)).1⟩

/-! ## Fruit placement -/

theorem overlapsWithSnake_iff (snakePositions : List Position) (position : Position) :
    overlapsWithSnake snakePositions position = true ↔ position ∈ snakePositions := by
  induction snakePositions with
  | nil => simp [overlapsWithSnake]
  | cons p ps ih =>
    unfold overlapsWithSnake
    split
    · rename_i h
      have hp : position = p := by
        cases p; cases position; simp_all
      simp [hp]
    · rename_i h
      rw [ih]
      have hp : position ≠ p := by
        rintro rfl
        exact h ⟨rfl, rfl⟩
      simp [hp]

theorem changeFruitLoop_sound (w h : ℚ) (sp : List Position) :
    ∀ (rnd : List ℚ) (p q : Position) (rnd1 : List ℚ),
      changeFruitLoop w h sp p rnd = some (q, rnd1) →
      (p :: drawnCandidates w h rnd).find? (fun c => decide (c ∉ sp)) = some q ∧ q ∉ sp
  | [], p, q, rnd1, hloop => by
    unfold changeFruitLoop at hloop
    by_cases hov : overlapsWithSnake sp p = true
    · simp [hov] at hloop
    · simp only [hov] at hloop
      have hp : p ∉ sp := fun hm => hov ((overlapsWithSnake_iff sp p).mpr hm)
      simp only [Bool.false_eq_true, if_false, Option.some.injEq, Prod.mk.injEq] at hloop
      obtain ⟨rfl, _⟩ := hloop
      exact ⟨by simp [List.find?, hp], hp⟩
  | [r], p, q, rnd1, hloop => by
    unfold changeFruitLoop at hloop
    by_cases hov : overlapsWithSnake sp p = true
    · simp [hov] at hloop
    · simp only [hov] at hloop
      have hp : p ∉ sp := fun hm => hov ((overlapsWithSnake_iff sp p).mpr hm)
      simp only [Bool.false_eq_true, if_false, Option.some.injEq, Prod.mk.injEq] at hloop
      obtain ⟨rfl, _⟩ := hloop
      exact ⟨by simp [List.find?, hp], hp⟩
  | r1 :: r2 :: rnd, p, q, rnd1, hloop => by
    unfold changeFruitLoop at hloop
    by_cases hov : overlapsWithSnake sp p = true
    · simp only [hov, if_true] at hloop
      have hp : p ∈ sp := (overlapsWithSnake_iff sp p).mp hov
      obtain ⟨hfind, hq⟩ := changeFruitLoop_sound w h sp rnd _ q rnd1 hloop
      refine ⟨?_, hq⟩
      rw [drawnCandidates]
      rw [List.find?_cons_of_neg _ (by simpa using hp)]
      exact hfind
    · simp only [hov] at hloop
      have hp : p ∉ sp := fun hm => hov ((overlapsWithSnake_iff sp p).mpr hm)
      simp only [Bool.false_eq_true, if_false, Option.some.injEq, Prod.mk.injEq] at hloop
      obtain ⟨rfl, _⟩ := hloop
      exact ⟨by simp [List.find?, hp], hp⟩

theorem changeFruitLoop_free (w h : ℚ) (sp : List Position) (p : Position) (rnd : List ℚ)
    (hov : overlapsWithSnake sp p = false) :
    changeFruitLoop w h sp p rnd = some (p, rnd) := by
  unfold changeFruitLoop
  split <;> simp [hov]

theorem changeFruitLoop_complete (w h : ℚ) (sp : List Position) (more : List ℚ) :
    ∀ (rnd : List ℚ) (p q : Position),
      (p :: drawnCandidates w h rnd).find? (fun c => decide (c ∉ sp)) = some q →
      ∃ front, changeFruitLoop w h sp p (rnd ++ more) = some (q, front ++ more)
  | [], p, q, hfind => by
    have hp : p ∉ sp := by
      intro hm
      simp [drawnCandidates, List.find?, hm] at hfind
    have hq : p = q := by simpa [List.find?, hp] using hfind
    have hov : overlapsWithSnake sp p = false := by
      rw [← Bool.not_eq_true, overlapsWithSnake_iff]
      exact hp
    refine ⟨[], ?_⟩
    rw [← hq]
    exact changeFruitLoop_free w h sp p _ hov
  | [r], p, q, hfind => by
    have hp : p ∉ sp := by
      intro hm
      simp [drawnCandidates, List.find?, hm] at hfind
    have hq : p = q := by simpa [List.find?, hp] using hfind
    have hov : overlapsWithSnake sp p = false := by
      rw [← Bool.not_eq_true, overlapsWithSnake_iff]
      exact hp
    refine ⟨[r], ?_⟩
    rw [← hq]
    exact changeFruitLoop_free w h sp p _ hov
  | r1 :: r2 :: rnd, p, q, hfind => by
    by_cases hp : p ∈ sp
    · have hov : overlapsWithSnake sp p = true := (overlapsWithSnake_iff sp p).mpr hp
      rw [List.find?_cons_of_neg _ (by simpa using hp), drawnCandidates] at hfind
      obtain ⟨front, hfront⟩ := changeFruitLoop_complete w h sp more rnd _ q hfind
      refine ⟨front, ?_⟩
      rw [List.cons_append, List.cons_append, changeFruitLoop]
      simp only [hov, if_true]
      exact hfront
    · have hq : p = q := by simpa [List.find?, hp] using hfind
      have hov : overlapsWithSnake sp p = false := by
        rw [← Bool.not_eq_true, overlapsWithSnake_iff]
        exact hp
      refine ⟨r1 :: r2 :: rnd, ?_⟩
      rw [← hq]
      exact changeFruitLoop_free w h sp p _ hov

theorem changeFruit_sound (f f' : Fruit) (snakePositions : List Position)
    (rnd rnd' : List ℚ) (hret : f.changeFruit snakePositions rnd = some (f', rnd')) :
    (drawnCandidates f.canvasWidth f.canvasHeight rnd).find?
        (fun c => decide (c ∉ snakePositions)) = some f'.position ∧
    f'.position ∉ snakePositions := by
  match rnd, hret with
  | [], hret => simp [Fruit.changeFruit, Fruit.randomPosition] at hret
  | [_], hret => simp [Fruit.changeFruit, Fruit.randomPosition] at hret
  | r1 :: r2 :: rnd1, hret =>
    simp only [Fruit.changeFruit, Fruit.randomPosition, Option.some_bind] at hret
    cases hloop : changeFruitLoop f.canvasWidth f.canvasHeight snakePositions
        (randomCell f.canvasWidth f.canvasHeight r1 r2) rnd1 with
    | none => simp [hloop] at hret
    | some res =>
      obtain ⟨q, rnd2⟩ := res
      rw [hloop] at hret
      have hq : f'.position = q := by
        cases rnd2 with
        | nil => simp [Fruit.randomFruitName] at hret
        | cons r rnd3 =>
          simp only [Option.some_bind, Fruit.randomFruitName, Option.map_some',
            Option.some.injEq, Prod.mk.injEq] at hret
          rw [← hret.1]
      rw [hq, drawnCandidates]
      exact changeFruitLoop_sound _ _ _ _ _ _ _ hloop

theorem changeFruit_complete (f : Fruit) (snakePositions : List Position) (rnd : List ℚ)
    (c : Position)
    (hfind : (drawnCandidates f.canvasWidth f.canvasHeight rnd).find?
        (fun c => decide (c ∉ snakePositions)) = some c)
    (r : ℚ) (more : List ℚ) :
    ∃ (f' : Fruit) (rnd' : List ℚ),
      f.changeFruit snakePositions (rnd ++ r :: more) = some (f', rnd') ∧
      f'.position = c := by
  match rnd, hfind with
  | [], hfind => simp [drawnCandidates] at hfind
  | [_], hfind => simp [drawnCandidates] at hfind
  | r1 :: r2 :: rnd1, hfind =>
    rw [drawnCandidates] at hfind
    obtain ⟨front, hfront⟩ :=
      changeFruitLoop_complete f.canvasWidth f.canvasHeight snakePositions (r :: more)
        rnd1 _ c hfind
    simp only [Fruit.changeFruit, List.cons_append, Fruit.randomPosition, Option.some_bind,
      hfront]
    cases front with
    | nil => exact ⟨_, _, rfl, rfl⟩
    | cons a front1 => exact ⟨_, _, rfl, rfl⟩

/-- Claim C6. For every list of snake positions and every sequence of `Math.random()` outcomes
on which `changeFruit(snakePositions)` returns, the fruit position it sets is the first
drawn candidate that is not equal to any element of `snakePositions`, and so it is not a
member of `snakePositions`. Moreover the method does return as soon as the outcomes hold a
candidate off the snake followed by one more outcome (for the fruit name), and then sets
that first free candidate. -/
theorem changeFruit_first_free (f : Fruit) (snakePositions : List Position) (rnd : List ℚ) :
    (∀ (f' : Fruit) (rnd' : List ℚ), f.changeFruit snakePositions rnd = some (f', rnd') →
      (drawnCandidates f.canvasWidth f.canvasHeight rnd).find?
          (fun c => decide (c ∉ snakePositions)) = some f'.position ∧
      f'.position ∉ snakePositions) ∧
    (∀ c : Position,
      (drawnCandidates f.canvasWidth f.canvasHeight rnd).find?
          (fun c => decide (c ∉ snakePositions)) = some c →
      ∀ (r : ℚ) (more : List ℚ), ∃ (f' : Fruit) (rnd' : List ℚ),
        f.changeFruit snakePositions (rnd ++ r :: more) = some (f', rnd') ∧
        f'.position = c) :=
  ⟨fun f' rnd' hret => changeFruit_sound f f' snakePositions rnd rnd' hret,
    fun c hfind r more => changeFruit_complete f snakePositions rnd c hfind r more⟩

theorem changeFruit_first_free_witness :
    (Fruit.mk 500 500 ⟨6, 4⟩ (some "Apple")).changeFruit [⟨7, 4⟩, ⟨8, 4⟩]
        [7 / 10, 4 / 10, 3 / 10, 2 / 10, 0] =
      some (Fruit.mk 500 500 ⟨3, 2⟩ (some "Apple"), []) ∧
    (drawnCandidates 500 500 [7 / 10, 4 / 10, 3 / 10, 2 / 10, 0]).find?
        (fun c => decide (c ∉ [(⟨7, 4⟩ : Position), ⟨8, 4⟩])) = some ⟨3, 2⟩ ∧
    (⟨3, 2⟩ : Position) ∉ [(⟨7, 4⟩ : Position), ⟨8, 4⟩] := by
  have hret : (Fruit.mk 500 500 ⟨6, 4⟩ (some "Apple")).changeFruit [⟨7, 4⟩, ⟨8, 4⟩]
      [7 / 10, 4 / 10, 3 / 10, 2 / 10, 0] =
      some (Fruit.mk 500 500 ⟨3, 2⟩ (some "Apple"), []) := by
    norm_num [Fruit.changeFruit, Fruit.randomPosition, changeFruitLoop, overlapsWithSnake,
      randomCell, Fruit.randomFruitName, fruitNameAt, FRUIT_NAMES]
  exact ⟨hret, (changeFruit_first_free _ _ _).1 _ _ hret⟩

/-! ## The game loop -/

theorem frameTooEarly_eq (e speed : ℚ) (hspeed : speed ≠ 0) :
    frameTooEarly e speed = decide (e < 1 / speed) := by
  simp [frameTooEarly, hspeed]

theorem gameLoop_of_ended (g : Game) (t : ℚ) (rnd : List ℚ) (h : g.gameEnd = true) :
    g.gameLoop t rnd = some (g, rnd) := by
  simp [Game.gameLoop, h]

theorem gameLoop_of_early (g : Game) (t : ℚ) (rnd : List ℚ)
    (h : frameTooEarly ((t - g.lastRenderTime) / 1000) g.snakeSpeed = true) :
    g.gameLoop t rnd = some (g, rnd) := by
  unfold Game.gameLoop
  split
  · rfl
  · simp [h]

/-- What `gameLoop` does once it is past both early returns, in terms of the snake `s1`
that `move()` produces. -/
theorem gameLoop_of_due (g : Game) (t : ℚ) (rnd : List ℚ) (s1 : Snake)
    (hrun : g.gameEnd = false)
    (hdue : frameTooEarly ((t - g.lastRenderTime) / 1000) g.snakeSpeed = false)
    (hmove : g.snake.move = some s1) :
    g.gameLoop t rnd =
      if s1.selfCollision then
        some ({ g with lastRenderTime := t, snake := s1, gameEnd := true }, rnd)
      else
        s1.getHeadPosition.bind fun snakeHead =>
          if checkFruitCollision snakeHead g.fruit.position then
            s1.grow.bind fun s2 =>
              (g.fruit.changeFruit s2.getBodyPositions rnd).map fun (fruit1, rnd1) =>
                ({ g with lastRenderTime := t, snake := s2, score := g.score + 1,
                          fruit := fruit1 }, rnd1)
          else some ({ g with lastRenderTime := t, snake := s1 }, rnd) := by
  unfold Game.gameLoop
  simp only [hrun, hdue, Bool.false_eq_true, if_false, hmove, Option.some_bind,
    Game.gameOver, Fruit.getPosition]

theorem move_ne_nil (s s1 : Snake) (h : s.move = some s1) : s1.bodyParts ≠ [] := by
  intro hnil
  have hlen := move_length s s1 h
  cases hb : s.bodyParts with
  | nil => simp [Snake.move, hb] at h
  | cons head rest => rw [hnil, hb] at hlen; simp at hlen

theorem grow_total (s : Snake) (hne : s.bodyParts ≠ []) :
    ∃ s2, s.grow = some s2 ∧ s2.bodyParts.length = s.bodyParts.length + 1 ∧
      s2.bodyParts = s.bodyParts ++
        [{ position := (s.bodyParts.getLast hne).position
           orientation := s.lastTailOrientation }] := by
  unfold Snake.grow
  rw [List.getLast?_eq_getLast _ hne]
  exact ⟨_, rfl, by simp, rfl⟩

theorem checkFruitCollision_iff (p q : Position) :
    checkFruitCollision p q = true ↔ p = q := by
  cases p; cases q
  simp [checkFruitCollision]

theorem performsTick_iff (g : Game) (t : ℚ) :
    g.performsTick t = true ↔
      g.gameEnd = false ∧
        frameTooEarly ((t - g.lastRenderTime) / 1000) g.snakeSpeed = false := by
  simp [Game.performsTick]

theorem gameLoop_of_not_performsTick (g : Game) (t : ℚ) (rnd : List ℚ)
    (h : g.performsTick t = false) : g.gameLoop t rnd = some (g, rnd) := by
  cases hend : g.gameEnd with
  | true => exact gameLoop_of_ended g t rnd hend
  | false =>
    cases hearly : frameTooEarly ((t - g.lastRenderTime) / 1000) g.snakeSpeed with
    | true => exact gameLoop_of_early g t rnd hearly
    | false => simp [Game.performsTick, hend, hearly] at h

/-- Claim C7. In a game that has not ended (with a non-zero speed and a snake of at least one
body part), for every last-tick time stamp `L = g.lastRenderTime` and every callback time
stamp `t`: when `(t - L) / 1000 ≥ 1 / snakeSpeed`, one `gameLoop(t)` call performs exactly
one `move()` of the snake (the resulting snake is the moved snake, or the moved snake
grown by one part) and sets the last-tick time stamp to `t`, however large `t - L` is, and
it returns unless the fruit respawn does not return; otherwise the call changes nothing:
snake, fruit, score and last-tick time stamp are as before. -/
theorem gameLoop_at_most_one_move (g : Game) (t : ℚ) (rnd : List ℚ)
    (hrun : g.gameEnd = false) (hspeed : g.snakeSpeed ≠ 0) (hne : g.snake.bodyParts ≠ []) :
    ((t - g.lastRenderTime) / 1000 ≥ 1 / g.snakeSpeed →
      ∃ s1, g.snake.move = some s1 ∧
        (∀ (g' : Game) (rnd' : List ℚ), g.gameLoop t rnd = some (g', rnd') →
          g'.lastRenderTime = t ∧ (g'.snake = s1 ∨ s1.grow = some g'.snake)) ∧
        (g.gameLoop t rnd = none →
          ∃ s2, s1.grow = some s2 ∧
            g.fruit.changeFruit s2.getBodyPositions rnd = none)) ∧
    (¬ (t - g.lastRenderTime) / 1000 ≥ 1 / g.snakeSpeed →
      g.gameLoop t rnd = some (g, rnd)) := by
  constructor
  · intro hge
    obtain ⟨s1, hmove, _⟩ := move_total g.snake hne
    have hdue : frameTooEarly ((t - g.lastRenderTime) / 1000) g.snakeSpeed = false := by
      rw [frameTooEarly_eq _ _ hspeed]
      simpa using hge
    have hloop := gameLoop_of_due g t rnd s1 hrun hdue hmove
    obtain ⟨s2, hgrow, _, _⟩ := grow_total s1 (move_ne_nil _ _ hmove)
    have hhead : ∃ p, s1.getHeadPosition = some p := by
      cases hb : s1.bodyParts with
      | nil => exact absurd hb (move_ne_nil _ _ hmove)
      | cons a l => exact ⟨a.position, by simp [Snake.getHeadPosition, hb]⟩
    obtain ⟨p, hp⟩ := hhead
    rw [hp, hgrow] at hloop
    simp only [Option.some_bind] at hloop
    refine ⟨s1, hmove, ?_, ?_⟩
    · intro g' rnd' hret
      rw [hloop] at hret
      split_ifs at hret with hc hf
      · cases hret
        exact ⟨rfl, Or.inl rfl⟩
      · cases hcf : g.fruit.changeFruit s2.getBodyPositions rnd with
        | none => simp [hcf] at hret
        | some res =>
          rw [hcf] at hret
          cases hret
          exact ⟨rfl, Or.inr hgrow⟩
      · cases hret
        exact ⟨rfl, Or.inl rfl⟩
    · intro hnone
      rw [hloop] at hnone
      split_ifs at hnone with hc hf
      exact ⟨s2, hgrow, by simpa using hnone⟩
  · intro hlt
    apply gameLoop_of_early
    rw [frameTooEarly_eq _ _ hspeed]
    simpa using hlt

theorem gameLoop_at_most_one_move_witness :
    ((10000 : ℚ) - 0) / 1000 ≥ 1 / 2 ∧
    ∃ s1, (Snake.mk 4 [⟨⟨7, 4⟩, .left⟩, ⟨⟨8, 4⟩, .left⟩, ⟨⟨9, 4⟩, .left⟩, ⟨⟨10, 4⟩, .left⟩]
        .left false).move = some s1 ∧
      (∀ (g' : Game) (rnd' : List ℚ),
        (Game.mk false 2 0
          (Snake.mk 4 [⟨⟨7, 4⟩, .left⟩, ⟨⟨8, 4⟩, .left⟩, ⟨⟨9, 4⟩, .left⟩, ⟨⟨10, 4⟩, .left⟩]
            .left false)
          (Fruit.mk 500 500 ⟨0, 0⟩ (some "Apple")) 0).gameLoop 10000 [] = some (g', rnd') →
        g'.lastRenderTime = 10000 ∧ (g'.snake = s1 ∨ s1.grow = some g'.snake)) := by
  refine ⟨by norm_num, ?_⟩
  obtain ⟨s1, h1, h2, _⟩ :=
    (gameLoop_at_most_one_move
      (Game.mk false 2 0
        (Snake.mk 4 [⟨⟨7, 4⟩, .left⟩, ⟨⟨8, 4⟩, .left⟩, ⟨⟨9, 4⟩, .left⟩, ⟨⟨10, 4⟩, .left⟩]
          .left false)
        (Fruit.mk 500 500 ⟨0, 0⟩ (some "Apple")) 0) 10000 [] rfl (by norm_num)
      (by simp)).1 (by norm_num)
  exact ⟨s1, h1, h2⟩

/-- A ten-second jump at two moves per second: the snake of a new game has moved by one
cell, not by five. -/
theorem gameLoop_ten_second_jump :
    (Game.mk false 2 0
        (Snake.mk 4 [⟨⟨7, 4⟩, .left⟩, ⟨⟨8, 4⟩, .left⟩, ⟨⟨9, 4⟩, .left⟩, ⟨⟨10, 4⟩, .left⟩]
          .left false)
        (Fruit.mk 500 500 ⟨0, 0⟩ (some "Apple")) 0).gameLoop 10000 [] =
      some (Game.mk false 2 10000
        (Snake.mk 4 [⟨⟨6, 4⟩, .left⟩, ⟨⟨7, 4⟩, .left⟩, ⟨⟨8, 4⟩, .left⟩, ⟨⟨9, 4⟩, .left⟩]
          .left false)
        (Fruit.mk 500 500 ⟨0, 0⟩ (some "Apple")) 0, []) := by
  rw [gameLoop_of_due _ _ _
    (Snake.mk 4 [⟨⟨6, 4⟩, .left⟩, ⟨⟨7, 4⟩, .left⟩, ⟨⟨8, 4⟩, .left⟩, ⟨⟨9, 4⟩, .left⟩]
      .left false) rfl (by norm_num [frameTooEarly]) (by decide)]
  decide

theorem new_snake_eq :
    Snake.new 4 .left { x := 7, y := 4 } =
      some (Snake.mk 4 [⟨⟨7, 4⟩, .left⟩, ⟨⟨8, 4⟩, .left⟩, ⟨⟨9, 4⟩, .left⟩, ⟨⟨10, 4⟩, .left⟩]
        .left false) := by
  decide

theorem new_game_eq (speed w h : ℚ) (rnd0 rest : List ℚ) (g0 : Game)
    (hnew : Game.new speed w h rnd0 = some (g0, rest)) :
    g0.gameEnd = false ∧ g0.snakeSpeed = speed ∧ g0.lastRenderTime = 0 ∧ g0.score = 0 ∧
    g0.snake = Snake.mk 4
      [⟨⟨7, 4⟩, .left⟩, ⟨⟨8, 4⟩, .left⟩, ⟨⟨9, 4⟩, .left⟩, ⟨⟨10, 4⟩, .left⟩] .left false := by
  unfold Game.new at hnew
  rw [new_snake_eq] at hnew
  simp only [Option.some_bind, Option.map_eq_some'] at hnew
  obtain ⟨⟨fruit, rnd1⟩, _, heq⟩ := hnew
  simp only [Prod.mk.injEq] at heq
  obtain ⟨rfl, _⟩ := heq
  exact ⟨rfl, rfl, rfl, rfl, rfl⟩

/-- Claim C9. Start from a new game (snake `Snake(4, 'left', {x: 7, y: 4})`, score 0) and
place the fruit at `(6, 4)`. One `gameLoop` call that ticks moves the snake onto the fruit
without self-collision and grows it: the score is 1 and the snake has exactly 5 body parts
with its head at `(6, 4)`. The call returns exactly when the fruit respawn returns on the
random outcomes, with this score and snake, and the new fruit position is then not the
position of any of the snake's 5 body parts. -/
theorem first_fruit_eaten (speed w h : ℚ) (rnd0 rest : List ℚ) (g0 g : Game) (t : ℚ)
    (rnd : List ℚ)
    (hnew : Game.new speed w h rnd0 = some (g0, rest))
    (hplace : g = { g0 with fruit := { g0.fruit with position := ⟨6, 4⟩ } })
    (hdue : g.performsTick t = true) :
    ∃ s1 s2 : Snake,
      g.snake.move = some s1 ∧ s1.selfCollision = false ∧
      s1.getHeadPosition = some ⟨6, 4⟩ ∧ s1.grow = some s2 ∧
      s2.bodyParts.length = 5 ∧ s2.getHeadPosition = some ⟨6, 4⟩ ∧
      g.gameLoop t rnd =
        (g.fruit.changeFruit s2.getBodyPositions rnd).map
          (fun res =>
            ({ g with lastRenderTime := t, snake := s2, score := 1, fruit := res.1 },
              res.2)) ∧
      (∀ (g' : Game) (rnd' : List ℚ), g.gameLoop t rnd = some (g', rnd') →
        g'.score = 1 ∧ g'.snake = s2 ∧
          ∀ part ∈ g'.snake.bodyParts, g'.fruit.position ≠ part.position) := by
  obtain ⟨hend0, _, _, hscore0, hsnake0⟩ := new_game_eq speed w h rnd0 rest g0 hnew
  have hend : g.gameEnd = false := by rw [hplace]; exact hend0
  have hscore : g.score + 1 = 1 := by rw [hplace]; simp [hscore0]
  have hsnake : g.snake = Snake.mk 4
      [⟨⟨7, 4⟩, .left⟩, ⟨⟨8, 4⟩, .left⟩, ⟨⟨9, 4⟩, .left⟩, ⟨⟨10, 4⟩, .left⟩] .left false := by
    rw [hplace]; exact hsnake0
  have hfruit : g.fruit.position = ⟨6, 4⟩ := by rw [hplace]
  obtain ⟨_, hearly⟩ := (performsTick_iff _ _).mp hdue
  have hmove : g.snake.move = some (Snake.mk 4
      [⟨⟨6, 4⟩, .left⟩, ⟨⟨7, 4⟩, .left⟩, ⟨⟨8, 4⟩, .left⟩, ⟨⟨9, 4⟩, .left⟩] .left false) := by
    rw [hsnake]; decide
  have hsc : (Snake.mk 4
      [⟨⟨6, 4⟩, .left⟩, ⟨⟨7, 4⟩, .left⟩, ⟨⟨8, 4⟩, .left⟩, ⟨⟨9, 4⟩, .left⟩] .left
        false).selfCollision = false := by decide
  have hhead : (Snake.mk 4
      [⟨⟨6, 4⟩, .left⟩, ⟨⟨7, 4⟩, .left⟩, ⟨⟨8, 4⟩, .left⟩, ⟨⟨9, 4⟩, .left⟩] .left
        false).getHeadPosition = some ⟨6, 4⟩ := by decide
  have hgrow : (Snake.mk 4
      [⟨⟨6, 4⟩, .left⟩, ⟨⟨7, 4⟩, .left⟩, ⟨⟨8, 4⟩, .left⟩, ⟨⟨9, 4⟩, .left⟩] .left
        false).grow = some (Snake.mk 5
      [⟨⟨6, 4⟩, .left⟩, ⟨⟨7, 4⟩, .left⟩, ⟨⟨8, 4⟩, .left⟩, ⟨⟨9, 4⟩, .left⟩, ⟨⟨9, 4⟩, .left⟩]
        .left false) := by decide
  have hcheck : checkFruitCollision ⟨6, 4⟩ ⟨6, 4⟩ = true := by decide
  have hloop : g.gameLoop t rnd =
      (g.fruit.changeFruit (Snake.mk 5
        [⟨⟨6, 4⟩, .left⟩, ⟨⟨7, 4⟩, .left⟩, ⟨⟨8, 4⟩, .left⟩, ⟨⟨9, 4⟩, .left⟩, ⟨⟨9, 4⟩, .left⟩]
        .left false).getBodyPositions rnd).map
        (fun res =>
          ({ g with
              lastRenderTime := t
              snake := Snake.mk 5 [⟨⟨6, 4⟩, .left⟩, ⟨⟨7, 4⟩, .left⟩, ⟨⟨8, 4⟩, .left⟩,
                ⟨⟨9, 4⟩, .left⟩, ⟨⟨9, 4⟩, .left⟩] .left false
              score := 1
              fruit := res.1 }, res.2)) := by
    rw [gameLoop_of_due g t rnd _ hend hearly hmove, hsc, hhead, hfruit, hscore]
    simp only [Bool.false_eq_true, if_false, Option.some_bind, hcheck, if_true, hgrow]
  refine ⟨_, _, hmove, hsc, hhead, hgrow, rfl, by decide, hloop, ?_⟩
  intro g' rnd' hret
  rw [hloop] at hret
  simp only [Option.map_eq_some'] at hret
  obtain ⟨⟨fruit1, rnd1⟩, hcf, heq⟩ := hret
  simp only [Prod.mk.injEq] at heq
  obtain ⟨rfl, _⟩ := heq
  refine ⟨rfl, rfl, ?_⟩
  intro part hpart hpos
  have hfree := (changeFruit_sound _ _ _ _ _ hcf).2
  exact hfree (by
    simp only [Snake.getBodyPositions, List.mem_map]
    exact ⟨part, hpart, hpos.symm⟩)

theorem first_fruit_eaten_witness :
    Game.new SNAKE_SPEED 500 500 [7 / 10, 4 / 10, 0] = some (newGameWithFruitAt ⟨7, 4⟩, []) ∧
    (newGameWithFruitAt ⟨6, 4⟩).performsTick 500 = true ∧
    ∃ s1 s2 : Snake,
      (newGameWithFruitAt ⟨6, 4⟩).snake.move = some s1 ∧ s1.selfCollision = false ∧
      s1.getHeadPosition = some ⟨6, 4⟩ ∧ s1.grow = some s2 ∧
      s2.bodyParts.length = 5 ∧ s2.getHeadPosition = some ⟨6, 4⟩ := by
  have hnew : Game.new SNAKE_SPEED 500 500 [7 / 10, 4 / 10, 0] =
      some (newGameWithFruitAt ⟨7, 4⟩, []) := by
    rw [Game.new, new_snake_eq]
    norm_num [Fruit.new, Fruit.randomPosition, Fruit.randomFruitName, randomCell,
      fruitNameAt, FRUIT_NAMES, newGameWithFruitAt, newGameSnake]
  have hdue : (newGameWithFruitAt ⟨6, 4⟩).performsTick 500 = true := by
    norm_num [Game.performsTick, frameTooEarly, newGameWithFruitAt, SNAKE_SPEED]
  obtain ⟨s1, s2, h1, h2, h3, h4, h5, h6, _⟩ :=
    first_fruit_eaten SNAKE_SPEED 500 500 [7 / 10, 4 / 10, 0] [] (newGameWithFruitAt ⟨7, 4⟩)
      (newGameWithFruitAt ⟨6, 4⟩) 500 [] hnew rfl hdue
  exact ⟨hnew, hdue, s1, s2, h1, h2, h3, h4, h5, h6⟩

/-- Claim C10. In a running game state (a snake of at least one body part), one simulation
tick first moves the snake. If `selfCollision()` then holds, the game becomes ended, and
score, fruit and body are those after the move (score and fruit untouched, as many body
parts as before). Otherwise, if the head is on the fruit, the score increases by exactly
1, the snake gains exactly one body part and the fruit is respawned against the positions
of the grown body, the tick returning exactly when that respawn returns. Otherwise score
and fruit are unchanged and the snake, moved, has as many body parts as before. -/
theorem tick_outcomes (g : Game) (t : ℚ) (rnd : List ℚ)
    (hdue : g.performsTick t = true) (hne : g.snake.bodyParts ≠ []) :
    ∃ s1 : Snake, g.snake.move = some s1 ∧
      s1.bodyParts.length = g.snake.bodyParts.length ∧
      (s1.selfCollision = true →
        g.gameLoop t rnd =
          some ({ g with lastRenderTime := t, snake := s1, gameEnd := true }, rnd)) ∧
      (s1.selfCollision = false → s1.getHeadPosition = some g.fruit.position →
        ∃ s2 : Snake, s1.grow = some s2 ∧
          s2.bodyParts.length = s1.bodyParts.length + 1 ∧
          g.gameLoop t rnd =
            (g.fruit.changeFruit s2.getBodyPositions rnd).map
              (fun res =>
                ({ g with lastRenderTime := t, snake := s2, score := g.score + 1,
                          fruit := res.1 }, res.2))) ∧
      (s1.selfCollision = false → s1.getHeadPosition ≠ some g.fruit.position →
        g.gameLoop t rnd = some ({ g with lastRenderTime := t, snake := s1 }, rnd)) := by
  obtain ⟨hrun, hearly⟩ := (performsTick_iff g t).mp hdue
  obtain ⟨s1, hmove, hlen⟩ := move_total g.snake hne
  have hloop := gameLoop_of_due g t rnd s1 hrun hearly hmove
  have hne1 := move_ne_nil _ _ hmove
  obtain ⟨s2, hgrow, hlen2, _⟩ := grow_total s1 hne1
  obtain ⟨p, hp⟩ : ∃ p, s1.getHeadPosition = some p := by
    cases hb : s1.bodyParts with
    | nil => exact absurd hb hne1
    | cons a l => exact ⟨a.position, by simp [Snake.getHeadPosition, hb]⟩
  refine ⟨s1, hmove, hlen, ?_, ?_, ?_⟩
  · intro hsc
    rw [hloop, if_pos hsc]
  · intro hsc hhead
    refine ⟨s2, hgrow, hlen2, ?_⟩
    have hcheck : checkFruitCollision g.fruit.position g.fruit.position = true :=
      (checkFruitCollision_iff _ _).mpr rfl
    rw [hloop, hsc, hhead]
    simp only [Bool.false_eq_true, if_false, Option.some_bind, hcheck, if_true, hgrow]
  · intro hsc hhead
    have hcheck : checkFruitCollision p g.fruit.position = false := by
      rw [← Bool.not_eq_true, checkFruitCollision_iff]
      intro hpq
      exact hhead (by rw [hp, hpq])
    rw [hloop, hsc, hp]
    simp only [Bool.false_eq_true, if_false, Option.some_bind, hcheck]

theorem tick_outcomes_witness :
    (newGameWithFruitAt ⟨0, 0⟩).performsTick 500 = true ∧
    (newGameWithFruitAt ⟨0, 0⟩).snake.bodyParts ≠ [] ∧
    ∃ s1 : Snake, (newGameWithFruitAt ⟨0, 0⟩).snake.move = some s1 ∧
      s1.bodyParts.length = 4 ∧
      (s1.selfCollision = false → s1.getHeadPosition ≠ some ⟨0, 0⟩ →
        (newGameWithFruitAt ⟨0, 0⟩).gameLoop 500 [] =
          some ({ newGameWithFruitAt ⟨0, 0⟩ with lastRenderTime := 500, snake := s1 }, [])) := by
  have hdue : (newGameWithFruitAt ⟨0, 0⟩).performsTick 500 = true := by
    norm_num [Game.performsTick, frameTooEarly, newGameWithFruitAt, SNAKE_SPEED]
  obtain ⟨s1, h1, h2, _, _, h5⟩ :=
    tick_outcomes (newGameWithFruitAt ⟨0, 0⟩) 500 [] hdue (by decide)
  exact ⟨hdue, by decide, s1, h1, h2, h5⟩

/-! ## Callbacks at half the tick interval -/

theorem gameLoop_fields_of_performsTick (g g1 : Game) (t : ℚ) (rnd rnd1 : List ℚ)
    (hdue : g.performsTick t = true) (hloop : g.gameLoop t rnd = some (g1, rnd1)) :
    g1.lastRenderTime = t ∧ g1.snakeSpeed = g.snakeSpeed := by
  obtain ⟨hrun, hearly⟩ := (performsTick_iff g t).mp hdue
  cases hmove : g.snake.move with
  | none => simp [Game.gameLoop, hrun, hearly, hmove] at hloop
  | some s1 =>
    rw [gameLoop_of_due g t rnd s1 hrun hearly hmove] at hloop
    split_ifs at hloop with hsc
    · cases hloop
      exact ⟨rfl, rfl⟩
    · cases hhead : s1.getHeadPosition with
      | none => simp [hhead] at hloop
      | some p =>
        rw [hhead] at hloop
        simp only [Option.some_bind] at hloop
        split_ifs at hloop with hf
        · cases hgrow : s1.grow with
          | none => simp [hgrow] at hloop
          | some s2 =>
            rw [hgrow] at hloop
            simp only [Option.some_bind, Option.map_eq_some'] at hloop
            obtain ⟨res, _, heq⟩ := hloop
            cases heq
            exact ⟨rfl, rfl⟩
        · cases hloop
          exact ⟨rfl, rfl⟩

theorem performsTick_half_interval (g : Game) (j : Nat) (hspeed : g.snakeSpeed = 2)
    (hlast : g.lastRenderTime = 500 * ((j / 2 : Nat) : ℚ)) (hrun : g.gameEnd = false) :
    g.performsTick (250 * ((j + 1 : Nat) : ℚ)) = true ↔ Even (j + 1) := by
  rw [performsTick_iff, frameTooEarly_eq _ _ (by rw [hspeed]; norm_num), hspeed, hlast]
  simp only [hrun, true_and, decide_eq_false_iff_not, not_lt]
  rcases Nat.even_or_odd' j with ⟨q, hq | hq⟩
  · have hdiv : j / 2 = q := by omega
    have hodd : ¬ Even (j + 1) := by
      rw [Nat.even_add_one, not_not]
      exact ⟨q, by omega⟩
    simp only [hdiv, hodd, iff_false, not_le]
    rw [hq]
    push_cast
    linarith
  · have hdiv : j / 2 = q := by omega
    have heven : Even (j + 1) := ⟨q + 1, by omega⟩
    simp only [hdiv, heven, iff_true]
    rw [hq]
    push_cast
    linarith

theorem gameLoops_cons (g : Game) (rnd : List ℚ) (t : ℚ) (times : List ℚ)
    (states : List Game) (h : g.gameLoops rnd (t :: times) = some states) :
    ∃ g1 rnd1 states1, g.gameLoop t rnd = some (g1, rnd1) ∧
      g1.gameLoops rnd1 times = some states1 ∧ states = g1 :: states1 := by
  rw [Game.gameLoops] at h
  cases hloop : g.gameLoop t rnd with
  | none => simp [hloop] at h
  | some res =>
    obtain ⟨g1, rnd1⟩ := res
    rw [hloop] at h
    simp only [Option.some_bind, Option.map_eq_some'] at h
    obtain ⟨states1, h1, rfl⟩ := h
    exact ⟨g1, rnd1, states1, rfl, h1, rfl⟩

/-- The invariant behind the half-interval pattern: after `j` callbacks at 250 ms steps the
last-tick time stamp is `500 * (j / 2)`. -/
theorem half_interval_from (m : Nat) :
    ∀ (j : Nat) (g : Game) (rnd : List ℚ) (states : List Game),
      g.snakeSpeed = 2 → g.lastRenderTime = 500 * ((j / 2 : Nat) : ℚ) → g.gameEnd = false →
      g.gameLoops rnd ((List.range' (j + 1) m).map (fun k : Nat => 250 * (k : ℚ))) = some states →
      (∀ g' ∈ states, g'.gameEnd = false) →
      (∀ i, i < m → ∃ before after : Game,
        (g :: states)[i]? = some before ∧ states[i]? = some after ∧
        (before.performsTick (250 * ((j + i + 1 : Nat) : ℚ)) = true ↔ Even (j + i + 1)) ∧
        (Even (j + i + 1) → after.lastRenderTime = 250 * ((j + i + 1 : Nat) : ℚ)) ∧
        (¬ Even (j + i + 1) → after = before)) ∧
      (List.zipWith Game.performsTick (g :: states)
          ((List.range' (j + 1) m).map (fun k : Nat => 250 * (k : ℚ)))).count true =
        (j + m) / 2 - j / 2 := by
  induction m with
  | zero =>
    intro j g rnd states _ _ _ _ _
    exact ⟨fun i hi => absurd hi (Nat.not_lt_zero i), by simp⟩
  | succ m ih =>
    intro j g rnd states hspeed hlast hrun hloops halive
    rw [List.range'_succ, List.map_cons] at hloops
    obtain ⟨g1, rnd1, states1, hloop, hrest, rfl⟩ := gameLoops_cons _ _ _ _ _ hloops
    have htick := performsTick_half_interval g j hspeed hlast hrun
    have hrun1 : g1.gameEnd = false := halive g1 (List.mem_cons_self _ _)
    have halive1 : ∀ g' ∈ states1, g'.gameEnd = false :=
      fun g' hg' => halive g' (List.mem_cons_of_mem _ hg')
    -- the state after this callback
    have hafter : (Even (j + 1) → g1.lastRenderTime = 250 * ((j + 1 : Nat) : ℚ) ∧
          g1.snakeSpeed = 2) ∧ (¬ Even (j + 1) → g1 = g) := by
      constructor
      · intro heven
        have h := gameLoop_fields_of_performsTick g g1 _ rnd rnd1 (htick.mpr heven) hloop
        exact ⟨h.1, by rw [h.2, hspeed]⟩
      · intro hodd
        have hno : g.performsTick (250 * ((j + 1 : Nat) : ℚ)) = false := by
          rw [← Bool.not_eq_true, htick]
          exact hodd
        rw [gameLoop_of_not_performsTick g _ rnd hno] at hloop
        cases hloop
        rfl
    have hspeed1 : g1.snakeSpeed = 2 := by
      by_cases heven : Even (j + 1)
      · exact (hafter.1 heven).2
      · rw [hafter.2 heven]; exact hspeed
    have hlast1 : g1.lastRenderTime = 500 * (((j + 1) / 2 : Nat) : ℚ) := by
      by_cases heven : Even (j + 1)
      · rw [(hafter.1 heven).1]
        obtain ⟨q, hq⟩ := heven
        have hdiv : (j + 1) / 2 = q := by omega
        rw [hdiv, hq]
        push_cast
        ring
      · rw [hafter.2 heven, hlast]
        have hdiv : (j + 1) / 2 = j / 2 := by
          rw [Nat.even_iff] at heven
          omega
        rw [hdiv]
    obtain ⟨ihidx, ihcount⟩ := ih (j + 1) g1 rnd1 states1 hspeed1 hlast1 hrun1 hrest halive1
    constructor
    · intro i hi
      cases i with
      | zero =>
        refine ⟨g, g1, by simp, by simp, htick, ?_, hafter.2⟩
        intro heven
        exact (hafter.1 heven).1
      | succ i =>
        obtain ⟨before, after, hb, ha, h3⟩ := ihidx i (by omega)
        have hidx : j + 1 + i + 1 = j + (i + 1) + 1 := by omega
        rw [hidx] at h3
        exact ⟨before, after, by simpa using hb, by simpa using ha, h3⟩
    · rw [List.range'_succ, List.map_cons, List.zipWith_cons_cons, List.count_cons, ihcount]
      by_cases heven : Even (j + 1)
      · rw [htick.mpr heven]
        rw [Nat.even_iff] at heven
        simp only [beq_self_eq_true, if_true]
        omega
      · have hno : g.performsTick (250 * ((j + 1 : Nat) : ℚ)) = false := by
          rw [← Bool.not_eq_true, htick]
          exact heven
        rw [hno]
        rw [Nat.even_iff] at heven
        simp only [Bool.false_eq_true, beq_iff_eq, if_false]
        omega

/-- Claim C8. With `snakeSpeed = 2` (tick interval 500 ms) and last-tick time stamp 0, feed
`gameLoop` the time stamps `250 * k` ms for `k = 1, ..., n` in a game that does not end.
Call `k` performs a simulation tick if and only if `k` is even: an even call records
`250 * k` as the last-tick time stamp, an odd call leaves the game state as it was. The
total number of ticks is `n / 2` rounded down. -/
theorem half_interval_ticks (g : Game) (rnd : List ℚ) (n : Nat) (states : List Game)
    (hspeed : g.snakeSpeed = 2) (hlast : g.lastRenderTime = 0) (hrun : g.gameEnd = false)
    (hloops : g.gameLoops rnd ((List.range' 1 n).map (fun k : Nat => 250 * (k : ℚ))) = some states)
    (halive : ∀ g' ∈ states, g'.gameEnd = false) :
    (∀ k, 1 ≤ k → k ≤ n → ∃ before after : Game,
      (g :: states)[k - 1]? = some before ∧ states[k - 1]? = some after ∧
      (before.performsTick (250 * (k : ℚ)) = true ↔ Even k) ∧
      (Even k → after.lastRenderTime = 250 * (k : ℚ)) ∧
      (¬ Even k → after = before)) ∧
    (List.zipWith Game.performsTick (g :: states)
        ((List.range' 1 n).map (fun k : Nat => 250 * (k : ℚ)))).count true = n / 2 := by
  have hlast0 : g.lastRenderTime = 500 * ((0 / 2 : Nat) : ℚ) := by
    rw [hlast]; norm_num
  obtain ⟨hidx, hcount⟩ := half_interval_from n 0 g rnd states hspeed hlast0 hrun
    (by simpa using hloops) halive
  constructor
  · intro k hk1 hkn
    obtain ⟨before, after, hb, ha, h3⟩ := hidx (k - 1) (by omega)
    have hk : 0 + (k - 1) + 1 = k := by omega
    rw [hk] at h3
    exact ⟨before, after, hb, ha, h3⟩
  · simpa using hcount

theorem half_interval_ticks_witness :
    (straightGame 0 7).snakeSpeed = 2 ∧
    (straightGame 0 7).lastRenderTime = 0 ∧
    (straightGame 0 7).gameEnd = false ∧
    (straightGame 0 7).gameLoops [] ((List.range' 1 4).map (fun k : Nat => 250 * (k : ℚ))) =
      some [straightGame 0 7, straightGame 500 6, straightGame 500 6, straightGame 1000 5] ∧
    (List.zipWith Game.performsTick
        [straightGame 0 7, straightGame 0 7, straightGame 500 6, straightGame 500 6,
          straightGame 1000 5]
        ((List.range' 1 4).map (fun k : Nat => 250 * (k : ℚ)))).count true = 4 / 2 := by
  have htimes : (List.range' 1 4).map (fun k : Nat => 250 * (k : ℚ)) =
      [250, 500, 750, 1000] := by
    norm_num [List.range']
  have h1 : (straightGame 0 7).gameLoop 250 [] = some (straightGame 0 7, []) :=
    gameLoop_of_not_performsTick _ _ _
      (by norm_num [Game.performsTick, frameTooEarly, straightGame, SNAKE_SPEED])
  have h2 : (straightGame 0 7).gameLoop 500 [] = some (straightGame 500 6, []) := by
    rw [gameLoop_of_due _ _ _ (straightGame 500 6).snake rfl
      (by norm_num [frameTooEarly, straightGame, SNAKE_SPEED]) (by decide)]
    decide
  have h3 : (straightGame 500 6).gameLoop 750 [] = some (straightGame 500 6, []) :=
    gameLoop_of_not_performsTick _ _ _
      (by norm_num [Game.performsTick, frameTooEarly, straightGame, SNAKE_SPEED])
  have h4 : (straightGame 500 6).gameLoop 1000 [] = some (straightGame 1000 5, []) := by
    rw [gameLoop_of_due _ _ _ (straightGame 1000 5).snake rfl
      (by norm_num [frameTooEarly, straightGame, SNAKE_SPEED]) (by decide)]
    decide
  have hloops : (straightGame 0 7).gameLoops []
      ((List.range' 1 4).map (fun k : Nat => 250 * (k : ℚ))) =
      some [straightGame 0 7, straightGame 500 6, straightGame 500 6, straightGame 1000 5] := by
    rw [htimes]
    simp only [Game.gameLoops, h1, h2, h3, h4, Option.some_bind, Option.map_some']
  exact ⟨rfl, rfl, rfl, hloops,
    (half_interval_ticks (straightGame 0 7) [] 4 _ rfl rfl rfl hloops (by decide)).2⟩

/-! ## The board -/

theorem wrap_inGrid (p : Position) : (wrap p).inGrid := by
  unfold wrap Position.inGrid
  dsimp only
  split_ifs <;> (try dsimp only at *) <;> omega

theorem move_bodyParts (s : Snake) (head : Segment) (rest : List Segment)
    (hbody : s.bodyParts = head :: rest) :
    ∃ s1, s.move = some s1 ∧
      s1.bodyParts =
        { position := wrap (step head.orientation head.position)
          orientation := head.orientation } :: (head :: rest).dropLast := by
  refine ⟨_, move_eq_some s head rest hbody, ?_⟩
  simp [List.dropLast]

/-- Every body part on the board stays on the board under `move()`, and the new head is
on the board whatever the old positions were. -/
theorem move_inGrid (s s1 : Snake) (hmove : s.move = some s1)
    (hgrid : ∀ part ∈ s.bodyParts, part.position.inGrid) :
    ∀ part ∈ s1.bodyParts, part.position.inGrid := by
  cases hb : s.bodyParts with
  | nil => simp [Snake.move, hb] at hmove
  | cons head rest =>
    obtain ⟨s1', hmove', hparts⟩ := move_bodyParts s head rest hb
    rw [hmove] at hmove'
    cases hmove'
    intro part hpart
    rw [hparts] at hpart
    rcases List.mem_cons.mp hpart with rfl | hmem
    · exact wrap_inGrid _
    · exact hgrid part (by rw [hb]; exact List.dropLast_subset _ hmem)

/-- Claim C11: evaluation of the constructor at the snake of a new session. The body built
by `new Snake(4, 'left', {x: 7, y: 4})` has its fourth part at `(10, 4)`, which is not on
the 10 x 10 board, so the initial state already breaks `0 ≤ x < 10`. -/
theorem new_snake_part_off_board :
    ∃ (s : Snake) (part : Segment),
      Snake.new 4 .left { x := 7, y := 4 } = some s ∧
      s.bodyParts[3]? = some part ∧ part.position = ⟨10, 4⟩ ∧ ¬ part.position.inGrid :=
  ⟨newGameSnake, ⟨⟨10, 4⟩, .left⟩, by decide, by decide, rfl, by decide⟩

/-- After the first `move()` of the snake of a new session every body part is on the
board. -/
theorem new_snake_after_move_inGrid :
    ∃ s1, newGameSnake.move = some s1 ∧ ∀ part ∈ s1.bodyParts, part.position.inGrid :=
  ⟨_, rfl, by decide⟩

/-- Claim C12: evaluation of the constructors at a failing outcome of the random draws. When
the two `Math.random()` calls of `new Fruit(500, 500)` return `0.7` and `0.4`, the new
game has its fruit at `(7, 4)`, the cell of the head of the initial snake. -/
theorem new_game_fruit_on_snake :
    ∃ (g : Game) (head : Segment),
      Game.new SNAKE_SPEED 500 500 [7 / 10, 4 / 10, 0] = some (g, []) ∧
      g.snake.bodyParts[0]? = some head ∧ g.fruit.position = head.position := by
  refine ⟨newGameWithFruitAt ⟨7, 4⟩, ⟨⟨7, 4⟩, .left⟩, ?_, by decide, rfl⟩
  rw [Game.new, new_snake_eq]
  norm_num [Fruit.new, Fruit.randomPosition, Fruit.randomFruitName, randomCell,
    fruitNameAt, FRUIT_NAMES, newGameWithFruitAt, newGameSnake]

/-! ## The first callback -/

/-- The shape of a `gameLoop` call that is past both early returns: the time stamp is
recorded and the snake is the moved snake, or the moved snake grown by one part; the call
returns unless the fruit respawn does not. -/
theorem gameLoop_due_shape (g : Game) (t : ℚ) (rnd : List ℚ) (s1 : Snake)
    (hrun : g.gameEnd = false)
    (hdue : frameTooEarly ((t - g.lastRenderTime) / 1000) g.snakeSpeed = false)
    (hmove : g.snake.move = some s1) :
    (∀ (g' : Game) (rnd' : List ℚ), g.gameLoop t rnd = some (g', rnd') →
      g'.lastRenderTime = t ∧ (g'.snake = s1 ∨ s1.grow = some g'.snake)) ∧
    (g.gameLoop t rnd = none →
      ∃ s2, s1.grow = some s2 ∧ g.fruit.changeFruit s2.getBodyPositions rnd = none) := by
  have hloop := gameLoop_of_due g t rnd s1 hrun hdue hmove
  obtain ⟨s2, hgrow, _, _⟩ := grow_total s1 (move_ne_nil _ _ hmove)
  obtain ⟨p, hp⟩ : ∃ p, s1.getHeadPosition = some p := by
    cases hb : s1.bodyParts with
    | nil => exact absurd hb (move_ne_nil _ _ hmove)
    | cons a l => exact ⟨a.position, by simp [Snake.getHeadPosition, hb]⟩
  rw [hp, hgrow] at hloop
  simp only [Option.some_bind] at hloop
  constructor
  · intro g' rnd' hret
    rw [hloop] at hret
    split_ifs at hret with hc hf
    · cases hret
      exact ⟨rfl, Or.inl rfl⟩
    · cases hcf : g.fruit.changeFruit s2.getBodyPositions rnd with
      | none => simp [hcf] at hret
      | some res =>
        rw [hcf] at hret
        cases hret
        exact ⟨rfl, Or.inr hgrow⟩
    · cases hret
      exact ⟨rfl, Or.inl rfl⟩
  · intro hnone
    rw [hloop] at hnone
    split_ifs at hnone with hc hf
    exact ⟨s2, hgrow, by simpa using hnone⟩

theorem new_game_first_tick :
    (newGameWithFruitAt ⟨0, 0⟩).gameLoop 500 [] = some (straightGame 500 6, []) := by
  rw [gameLoop_of_due _ _ _ (straightGame 500 6).snake rfl
    (by norm_num [frameTooEarly, newGameWithFruitAt, SNAKE_SPEED]) (by decide)]
  decide

theorem new_game_zero_draws :
    Game.new SNAKE_SPEED 500 500 [0, 0, 0] = some (newGameWithFruitAt ⟨0, 0⟩, []) := by
  rw [Game.new, new_snake_eq]
  norm_num [Fruit.new, Fruit.randomPosition, Fruit.randomFruitName, randomCell,
    fruitNameAt, FRUIT_NAMES, newGameWithFruitAt, newGameSnake]

/-- Claim C13, as stated, fails on the code: a new game starts with last-tick time stamp 0,
so its first callback at `t = 500` does perform a simulation tick (the snake has moved),
and its first callback at `t = 250` returns without recording `250`. -/
theorem first_callback_counterexample :
    Game.new SNAKE_SPEED 500 500 [0, 0, 0] = some (newGameWithFruitAt ⟨0, 0⟩, []) ∧
    (∃ g', (newGameWithFruitAt ⟨0, 0⟩).gameLoop 500 [] = some (g', []) ∧
      g'.snake ≠ (newGameWithFruitAt ⟨0, 0⟩).snake) ∧
    (∃ g', (newGameWithFruitAt ⟨0, 0⟩).gameLoop 250 [] = some (g', []) ∧
      g'.lastRenderTime ≠ 250) := by
  refine ⟨new_game_zero_draws, ⟨_, new_game_first_tick, by decide⟩, ?_⟩
  refine ⟨_, gameLoop_of_not_performsTick _ _ _
    (by norm_num [Game.performsTick, frameTooEarly, newGameWithFruitAt, SNAKE_SPEED]), ?_⟩
  norm_num [newGameWithFruitAt]

/-- Claim C13, amended. A newly constructed game has last-tick time stamp 0. Its first
`gameLoop(t)` callback performs no simulation tick and leaves the whole state, last-tick
time stamp included, unchanged when `t / 1000 < 1 / snakeSpeed`; otherwise it performs one
simulation tick, moving the snake once to the cells `(6,4)`, `(7,4)`, `(8,4)`, `(9,4)`,
and records `t` as the last-tick time stamp. -/
theorem first_callback (speed w h : ℚ) (rnd0 rest : List ℚ) (g0 : Game) (t : ℚ)
    (rnd : List ℚ) (hnew : Game.new speed w h rnd0 = some (g0, rest)) (hspeed : speed ≠ 0) :
    g0.lastRenderTime = 0 ∧
    (t / 1000 < 1 / speed → g0.gameLoop t rnd = some (g0, rnd)) ∧
    (¬ t / 1000 < 1 / speed →
      ∃ s1, g0.snake.move = some s1 ∧
        s1.getBodyPositions = [⟨6, 4⟩, ⟨7, 4⟩, ⟨8, 4⟩, ⟨9, 4⟩] ∧
        (∀ (g' : Game) (rnd' : List ℚ), g0.gameLoop t rnd = some (g', rnd') →
          g'.lastRenderTime = t ∧ (g'.snake = s1 ∨ s1.grow = some g'.snake)) ∧
        (g0.gameLoop t rnd = none →
          ∃ s2, s1.grow = some s2 ∧
            g0.fruit.changeFruit s2.getBodyPositions rnd = none)) := by
  obtain ⟨hend, hsp, hlast, _, hsnake⟩ := new_game_eq speed w h rnd0 rest g0 hnew
  have hearly : frameTooEarly ((t - g0.lastRenderTime) / 1000) g0.snakeSpeed =
      decide (t / 1000 < 1 / speed) := by
    rw [hsp, hlast, frameTooEarly_eq _ _ hspeed, sub_zero]
  refine ⟨hlast, ?_, ?_⟩
  · intro hlt
    exact gameLoop_of_early g0 t rnd (by rw [hearly]; simpa using hlt)
  · intro hge
    have hmove : g0.snake.move = some (Snake.mk 4
        [⟨⟨6, 4⟩, .left⟩, ⟨⟨7, 4⟩, .left⟩, ⟨⟨8, 4⟩, .left⟩, ⟨⟨9, 4⟩, .left⟩] .left false) := by
      rw [hsnake]; decide
    have hshape := gameLoop_due_shape g0 t rnd _ hend (by rw [hearly]; simpa using hge) hmove
    exact ⟨_, hmove, by decide, hshape.1, hshape.2⟩

theorem first_callback_witness :
    Game.new SNAKE_SPEED 500 500 [0, 0, 0] = some (newGameWithFruitAt ⟨0, 0⟩, []) ∧
    SNAKE_SPEED ≠ 0 ∧ ¬ (500 : ℚ) / 1000 < 1 / SNAKE_SPEED ∧
    ∃ s1, (newGameWithFruitAt ⟨0, 0⟩).snake.move = some s1 ∧
      s1.getBodyPositions = [⟨6, 4⟩, ⟨7, 4⟩, ⟨8, 4⟩, ⟨9, 4⟩] := by
  have hspeed : SNAKE_SPEED ≠ 0 := by norm_num [SNAKE_SPEED]
  have hge : ¬ (500 : ℚ) / 1000 < 1 / SNAKE_SPEED := by norm_num [SNAKE_SPEED]
  obtain ⟨s1, h1, h2, _⟩ :=
    (first_callback SNAKE_SPEED 500 500 [0, 0, 0] [] (newGameWithFruitAt ⟨0, 0⟩) 500 []
      new_game_zero_draws hspeed).2.2 hge
  exact ⟨new_game_zero_draws, hspeed, hge, s1, h1, h2⟩

/-! ## Requests outside the four orientations -/

/-- Claim C14, as stated, fails on the code: with the head heading up and the flag clear,
a request that is none of up, down, left, right is accepted; the head orientation and the
direction-changed flag both change. -/
theorem changeOrientation_invalid_counterexample :
    (Snake.mk 1 [⟨⟨3, 4⟩, .up⟩] .up false).bodyParts ≠ [] ∧
    ¬ (Orientation.other 0).isDirection ∧
    ∃ s', (Snake.mk 1 [⟨⟨3, 4⟩, .up⟩] .up false).changeOrientation (.other 0) = some s' ∧
      s'.bodyParts = [⟨⟨3, 4⟩, .other 0⟩] ∧
      s'.bodyParts ≠ (Snake.mk 1 [⟨⟨3, 4⟩, .up⟩] .up false).bodyParts ∧
      s'.directionChanged ≠ (Snake.mk 1 [⟨⟨3, 4⟩, .up⟩] .up false).directionChanged :=
  ⟨by decide, by decide, Snake.mk 1 [⟨⟨3, 4⟩, .other 0⟩] .up true, by decide, rfl,
    by decide, by decide⟩

/-- Claim C14, amended. For a snake with at least one body part and a request that is none
of up, down, left, right: when the direction-changed flag is set, or the head orientation
is itself none of the four, `changeOrientation` is a no-op; when the flag is clear and the
head orientation is one of the four, the request is accepted, the head orientation becomes
the requested value and the flag is set, nothing else changing. -/
theorem changeOrientation_invalid (s : Snake) (head : Segment) (rest : List Segment)
    (r : Orientation) (hbody : s.bodyParts = head :: rest) (hr : ¬ r.isDirection) :
    (s.directionChanged = true ∨ ¬ head.orientation.isDirection →
      s.changeOrientation r = some s) ∧
    (s.directionChanged = false → head.orientation.isDirection →
      s.changeOrientation r =
        some { s with
          bodyParts := { head with orientation := r } :: rest
          directionChanged := true }) := by
  constructor
  · rintro (hflag | ho)
    · exact changeOrientation_of_changed s r hflag
    · unfold Snake.changeOrientation
      rw [hbody]
      have h1 : head.orientation ≠ .up := fun h => ho (Or.inl h)
      have h2 : head.orientation ≠ .down := fun h => ho (Or.inr (Or.inl h))
      have h3 : head.orientation ≠ .left := fun h => ho (Or.inr (Or.inr (Or.inl h)))
      have h4 : head.orientation ≠ .right := fun h => ho (Or.inr (Or.inr (Or.inr h)))
      simp [h1, h2, h3, h4]
  · intro hflag ho
    rw [changeOrientation_eq s head rest hbody hflag ho r]
    have hne : r ≠ head.orientation.reverse := by
      intro h
      apply hr
      rw [h]
      rcases ho with h' | h' | h' | h' <;> rw [h'] <;> decide
    simp [hne]

theorem changeOrientation_invalid_witness :
    (Snake.mk 1 [⟨⟨3, 4⟩, .up⟩] .up true).bodyParts = [⟨⟨3, 4⟩, .up⟩] ∧
    ¬ (Orientation.other 0).isDirection ∧
    (Snake.mk 1 [⟨⟨3, 4⟩, .up⟩] .up true).changeOrientation (.other 0) =
      some (Snake.mk 1 [⟨⟨3, 4⟩, .up⟩] .up true) :=
  ⟨rfl, by decide,
    (changeOrientation_invalid (Snake.mk 1 [⟨⟨3, 4⟩, .up⟩] .up true) ⟨⟨3, 4⟩, .up⟩ []
      (.other 0) rfl (by decide)).1 (Or.inl rfl)⟩

/-! ## Growth followed by movement -/

theorem getBodyPositions_ne_nil (s : Snake) (hne : s.bodyParts ≠ []) :
    s.getBodyPositions ≠ [] := by
  simpa [Snake.getBodyPositions] using hne

theorem bodyParts_ne_nil_of_positions (s : Snake) (a : Position) (A : List Position)
    (h : s.getBodyPositions = a :: A) : s.bodyParts ≠ [] := by
  intro hnil
  simp [Snake.getBodyPositions, hnil] at h

theorem move_positions (s : Snake) (a : Position) (A : List Position)
    (hpos : s.getBodyPositions = a :: A) :
    ∃ (s1 : Snake) (o : Orientation), s.move = some s1 ∧
      s1.getBodyPositions = wrap (step o a) :: (a :: A).dropLast := by
  cases hb : s.bodyParts with
  | nil => exact absurd hb (bodyParts_ne_nil_of_positions s a A hpos)
  | cons head rest =>
    obtain ⟨s1, hmove, hparts⟩ := move_bodyParts s head rest hb
    refine ⟨s1, head.orientation, hmove, ?_⟩
    have ha : head.position = a := by
      simp only [Snake.getBodyPositions, hb, List.map_cons, List.cons.injEq] at hpos
      exact hpos.1
    rw [← hpos]
    simp only [Snake.getBodyPositions, hparts, hb, List.map_cons, List.map_dropLast, ha]

theorem changeOrientation_positions (s : Snake) (r : Orientation) (hne : s.bodyParts ≠ []) :
    ∃ s1, s.changeOrientation r = some s1 ∧ s1.getBodyPositions = s.getBodyPositions := by
  cases hb : s.bodyParts with
  | nil => exact absurd hb hne
  | cons head rest =>
    unfold Snake.changeOrientation
    split
    · exact ⟨s, rfl, rfl⟩
    · rw [hb]
      dsimp only
      split
      · exact ⟨_, rfl, by simp [Snake.getBodyPositions, hb]⟩
      · exact ⟨s, rfl, rfl⟩

theorem grow_positions (s : Snake) (q : Position)
    (hlast : s.getBodyPositions.getLast? = some q) :
    ∃ s1, s.grow = some s1 ∧ s1.getBodyPositions = s.getBodyPositions ++ [q] ∧
      s1.bodyParts.length = s.bodyParts.length + 1 := by
  simp only [Snake.getBodyPositions, List.getLast?_map, Option.map_eq_some'] at hlast
  obtain ⟨last, hl, rfl⟩ := hlast
  refine ⟨_, by rw [Snake.grow, hl], ?_, ?_⟩
  · simp [Snake.getBodyPositions]
  · simp

theorem calls_append (s : Snake) (cs ds : List Call) :
    s.calls (cs ++ ds) = (s.calls cs).bind (fun s1 => s1.calls ds) := by
  induction cs generalizing s with
  | nil => rfl
  | cons c cs ih =>
    simp only [List.cons_append, Snake.calls]
    cases s.call c with
    | none => rfl
    | some s1 => simp [ih]

theorem grows_positions (N : Nat) :
    ∀ (s : Snake) (q : Position), s.getBodyPositions.getLast? = some q →
      ∃ s1, s.calls (List.replicate N Call.grow) = some s1 ∧
        s1.getBodyPositions = s.getBodyPositions ++ List.replicate N q ∧
        s1.bodyParts.length = s.bodyParts.length + N := by
  induction N with
  | zero =>
    intro s q _
    exact ⟨s, rfl, by simp, rfl⟩
  | succ N ih =>
    intro s q hlast
    obtain ⟨s1, hgrow, hpos1, hlen1⟩ := grow_positions s q hlast
    have hlast1 : s1.getBodyPositions.getLast? = some q := by
      rw [hpos1]; simp
    obtain ⟨s2, hcalls, hpos2, hlen2⟩ := ih s1 q hlast1
    refine ⟨s2, ?_, ?_, ?_⟩
    · simp [List.replicate_succ, Snake.calls, Snake.call, hgrow, hcalls]
    · rw [hpos2, hpos1, List.replicate_succ]
      simp
    · rw [hlen2, hlen1]
      omega

theorem dropLast_append_replicate_succ (A : List Position) (m : Nat) (q : Position) :
    (A ++ List.replicate (m + 1) q).dropLast = A ++ List.replicate m q := by
  rw [List.replicate_succ', ← List.append_assoc, List.dropLast_concat]

/-- Moves and orientation changes on a body that ends in `m` pending copies `q`: after
`m` moves the copies are gone and `m` new heads stand in front of the rest `A`. -/
theorem moves_positions (cs : List Call) :
    ∀ (s : Snake) (a : Position) (A : List Position) (m : Nat) (q : Position),
      Call.grow ∉ cs → cs.count Call.move = m →
      s.getBodyPositions = (a :: A) ++ List.replicate m q →
      ∃ (s1 : Snake) (heads : List Position), s.calls cs = some s1 ∧
        s1.getBodyPositions = heads ++ a :: A ∧ heads.length = m ∧
        List.Chain' IsNextHead (heads ++ [a]) ∧
        s1.bodyParts.length = s.bodyParts.length := by
  induction cs with
  | nil =>
    intro s a A m q _ hcount hpos
    have hm : m = 0 := by simpa using hcount.symm
    subst hm
    exact ⟨s, [], rfl, by simpa using hpos, rfl, by simp, rfl⟩
  | cons c cs ih =>
    intro s a A m q hgrow hcount hpos
    have hcs : Call.grow ∉ cs := fun h => hgrow (List.mem_cons_of_mem _ h)
    have hne : s.bodyParts ≠ [] := bodyParts_ne_nil_of_positions s a _ hpos
    cases c with
    | grow => exact absurd (List.mem_cons_self _ _) hgrow
    | changeOrientation r =>
      obtain ⟨s0, hco, hpos0⟩ := changeOrientation_positions s r hne
      have hlen0 : s0.bodyParts.length = s.bodyParts.length := by
        obtain ⟨s0', hco', hlen'⟩ := changeOrientation_total s r hne
        rw [hco] at hco'
        cases hco'
        exact hlen'
      have hcount0 : cs.count Call.move = m := by
        rw [List.count_cons_of_ne (by simp)] at hcount
        exact hcount
      obtain ⟨s1, heads, hcalls, h1, h2, h3, h4⟩ :=
        ih s0 a A m q hcs hcount0 (by rw [hpos0, hpos])
      exact ⟨s1, heads, by simp [Snake.calls, Snake.call, hco, hcalls], h1, h2, h3,
        by rw [h4, hlen0]⟩
    | move =>
      rw [List.count_cons_self] at hcount
      obtain ⟨m0, rfl⟩ : ∃ m0, m = m0 + 1 := ⟨cs.count Call.move, hcount.symm⟩
      have hcount0 : cs.count Call.move = m0 := by omega
      have hpos' : s.getBodyPositions = a :: (A ++ List.replicate (m0 + 1) q) := by
        rw [hpos]; rfl
      obtain ⟨s0, o, hmove, hpos0⟩ := move_positions s a _ hpos'
      have hlen0 : s0.bodyParts.length = s.bodyParts.length := move_length s s0 hmove
      have hpos0' : s0.getBodyPositions =
          (wrap (step o a) :: a :: A) ++ List.replicate m0 q := by
        rw [hpos0]
        have h := dropLast_append_replicate_succ (a :: A) m0 q
        simp only [List.cons_append] at h ⊢
        rw [h]
      obtain ⟨s1, heads, hcalls, h1, h2, h3, h4⟩ :=
        ih s0 (wrap (step o a)) (a :: A) m0 q hcs hcount0 hpos0'
      refine ⟨s1, heads ++ [wrap (step o a)], ?_, ?_, ?_, ?_, ?_⟩
      · simp [Snake.calls, Snake.call, hmove, hcalls]
      · rw [h1]; simp
      · simp [h2]
      · rw [List.chain'_append]
        refine ⟨h3, by simp, ?_⟩
        intro x hx y hy
        have hx' : x = wrap (step o a) := by
          simpa [List.getLast?_append, Option.or] using hx.symm
        simp only [List.head?_cons, Option.mem_def, Option.some.injEq] at hy
        subst hx' hy
        exact ⟨o, rfl⟩
      · rw [h4, hlen0]

/-- Claim C15, as stated, fails on the code: a new head position may be an original
position. A one-part snake at `(0, 0)` heading left, grown four times and then moved left,
up, right and down around the wrapped board, ends with its head back on `(0, 0)`: the
body has 1 + 4 parts, the last one at the original position, yet `(0, 0)` appears twice
where it appeared once originally. -/
theorem grows_then_moves_counterexample :
    Snake.new 1 .left ⟨0, 0⟩ = some (Snake.mk 1 [⟨⟨0, 0⟩, .left⟩] .left false) ∧
    ∃ s', (Snake.mk 1 [⟨⟨0, 0⟩, .left⟩] .left false).calls
        (List.replicate 4 Call.grow ++
          [.move, .changeOrientation .up, .move, .changeOrientation .right, .move,
            .changeOrientation .down, .move]) = some s' ∧
      s'.getBodyPositions = [⟨0, 0⟩, ⟨0, 9⟩, ⟨9, 9⟩, ⟨9, 0⟩, ⟨0, 0⟩] ∧
      (Snake.mk 1 [⟨⟨0, 0⟩, .left⟩] .left false).getBodyPositions.count ⟨0, 0⟩ = 1 ∧
      s'.getBodyPositions.count ⟨0, 0⟩ = 2 :=
  ⟨by decide,
    Snake.mk 5 [⟨⟨0, 0⟩, .down⟩, ⟨⟨0, 9⟩, .down⟩, ⟨⟨9, 9⟩, .right⟩, ⟨⟨9, 0⟩, .up⟩,
      ⟨⟨0, 0⟩, .left⟩] .left false,
    by decide, by decide, by decide, by decide⟩

/-- Claim C15, amended. For a snake with `k ≥ 1` body parts at positions `p0, ..., p(k-1)`
(head first) and every `N`, `N` consecutive `grow()` calls followed by `N` `move()` calls
with any orientation changes among them all return, and afterwards the body has exactly
`k + N` parts, whose last `k` positions are `p0, ..., p(k-1)` in that order and whose
first `N` positions are the `N` successive new head positions, newest first (each computed
by `move()` from the one after it, the oldest from `p0`). No original position is dropped,
and each position appears as often as it did originally plus once for every new head
position equal to it; so none appears more often than originally unless a new head has
landed on it. -/
theorem grows_then_moves (s : Snake) (N : Nat) (cs : List Call) (hne : s.bodyParts ≠ [])
    (hgrow : Call.grow ∉ cs) (hmoves : cs.count Call.move = N) :
    ∃ (s' : Snake) (heads : List Position),
      s.calls (List.replicate N Call.grow ++ cs) = some s' ∧
      s'.bodyParts.length = s.bodyParts.length + N ∧
      heads.length = N ∧
      s'.getBodyPositions = heads ++ s.getBodyPositions ∧
      List.Chain' IsNextHead (heads ++ s.getBodyPositions.take 1) ∧
      (∀ p, p ∈ s.getBodyPositions → p ∈ s'.getBodyPositions) ∧
      (∀ p, s'.getBodyPositions.count p = heads.count p + s.getBodyPositions.count p) ∧
      (∀ p, p ∉ heads → s'.getBodyPositions.count p = s.getBodyPositions.count p) := by
  cases hpos : s.getBodyPositions with
  | nil => exact absurd hpos (getBodyPositions_ne_nil s hne)
  | cons a A =>
    obtain ⟨q, hq⟩ : ∃ q, s.getBodyPositions.getLast? = some q := by
      rw [hpos]
      exact ⟨(a :: A).getLast (List.cons_ne_nil a A), List.getLast?_eq_getLast _ _⟩
    obtain ⟨s1, hgrows, hpos1, hlen1⟩ := grows_positions N s q hq
    rw [hpos] at hpos1
    obtain ⟨s2, heads, hcalls, hpos2, hlen, hchain, hlen2⟩ :=
      moves_positions cs s1 a A N q hgrow hmoves hpos1
    refine ⟨s2, heads, ?_, by rw [hlen2, hlen1], hlen, hpos2, by simpa using hchain, ?_, ?_, ?_⟩
    · rw [calls_append, hgrows]
      exact hcalls
    · intro p hp
      rw [hpos2]
      exact List.mem_append_right _ hp
    · intro p
      rw [hpos2, List.count_append]
    · intro p hp
      rw [hpos2, List.count_append, List.count_eq_zero_of_not_mem hp, zero_add]

theorem grows_then_moves_witness :
    newGameSnake.bodyParts ≠ [] ∧
    Call.grow ∉ [Call.move, Call.changeOrientation .up, Call.move] ∧
    [Call.move, Call.changeOrientation .up, Call.move].count Call.move = 2 ∧
    ∃ (s' : Snake) (heads : List Position),
      newGameSnake.calls
        (List.replicate 2 Call.grow ++ [Call.move, Call.changeOrientation .up, Call.move]) =
          some s' ∧
      s'.bodyParts.length = newGameSnake.bodyParts.length + 2 ∧
      heads.length = 2 ∧
      s'.getBodyPositions = heads ++ newGameSnake.getBodyPositions := by
  obtain ⟨s', heads, h1, h2, h3, h4, _⟩ :=
    grows_then_moves newGameSnake 2 [Call.move, Call.changeOrientation .up, Call.move]
      (by decide) (by decide) (by decide)
  exact ⟨by decide, by decide, by decide, s', heads, h1, h2, h3, h4⟩

/-! ## One growth, one move -/

theorem distinctCount_cons_of_not_mem (h : Position) (P : List Position) (hh : h ∉ P) :
    distinctCount (h :: P) = distinctCount P + 1 := by
  simp [distinctCount, List.dedup_cons_of_not_mem hh]

theorem distinctCount_cons_of_mem (h : Position) (P : List Position) (hh : h ∈ P) :
    distinctCount (h :: P) = distinctCount P := by
  simp [distinctCount, List.dedup_cons_of_mem hh]

/-- Claim C16, as stated, fails on the code: when the move puts the head on a cell the body
already holds, no new position is gained. The snake `turningSnake` lies on the board and
holds 5 distinct positions; after `grow()` and one `move()` its head is on `(5, 6)`, the
cell of its fourth part, and the 6 parts still hold 5 distinct positions, not 6. -/
theorem grow_then_move_counterexample :
    turningSnake.bodyParts ≠ [] ∧
    (∀ p ∈ turningSnake.getBodyPositions, p.inGrid) ∧
    distinctCount turningSnake.getBodyPositions = 5 ∧
    ∃ s1 s2, turningSnake.grow = some s1 ∧ s1.move = some s2 ∧
      s2.getBodyPositions = [⟨5, 6⟩, ⟨5, 5⟩, ⟨4, 5⟩, ⟨4, 6⟩, ⟨5, 6⟩, ⟨6, 6⟩] ∧
      distinctCount s2.getBodyPositions = 5 :=
  ⟨by decide, by decide, by decide,
    Snake.mk 6 [⟨⟨5, 5⟩, .down⟩, ⟨⟨4, 5⟩, .right⟩, ⟨⟨4, 6⟩, .up⟩, ⟨⟨5, 6⟩, .left⟩,
      ⟨⟨6, 6⟩, .left⟩, ⟨⟨6, 6⟩, .left⟩] .left true,
    Snake.mk 6 [⟨⟨5, 6⟩, .down⟩, ⟨⟨5, 5⟩, .down⟩, ⟨⟨4, 5⟩, .right⟩, ⟨⟨4, 6⟩, .up⟩,
      ⟨⟨5, 6⟩, .left⟩, ⟨⟨6, 6⟩, .left⟩] .left false,
    by decide, by decide, by decide, by decide⟩

/-- Claim C16, amended. For a snake with at least one body part, `grow()` followed by one
`move()` both return, and the body then holds the new head position followed by the
positions held before the `grow()`. The number of distinct positions is exactly one more
than before the `grow()` when the new head position was not already held by the body,
and the same as before when it was. The new head position satisfies `0 ≤ x < 10` and
`0 ≤ y < 10`, and so does every position of the resulting body when every position held
before the `grow()` did. -/
theorem grow_then_move (s : Snake) (hne : s.bodyParts ≠ []) :
    ∃ (s1 s2 : Snake) (newHead : Position),
      s.grow = some s1 ∧ s1.move = some s2 ∧
      s2.getBodyPositions = newHead :: s.getBodyPositions ∧
      s2.bodyParts.length = s.bodyParts.length + 1 ∧
      newHead.inGrid ∧
      (newHead ∉ s.getBodyPositions →
        distinctCount s2.getBodyPositions = distinctCount s.getBodyPositions + 1) ∧
      (newHead ∈ s.getBodyPositions →
        distinctCount s2.getBodyPositions = distinctCount s.getBodyPositions) ∧
      ((∀ p ∈ s.getBodyPositions, p.inGrid) → ∀ p ∈ s2.getBodyPositions, p.inGrid) := by
  cases hpos : s.getBodyPositions with
  | nil => exact absurd hpos (getBodyPositions_ne_nil s hne)
  | cons a A =>
    obtain ⟨q, hq⟩ : ∃ q, s.getBodyPositions.getLast? = some q := by
      rw [hpos]
      exact ⟨(a :: A).getLast (List.cons_ne_nil a A), List.getLast?_eq_getLast _ _⟩
    obtain ⟨s1, hgrow, hpos1, hlen1⟩ := grow_positions s q hq
    rw [hpos] at hpos1
    obtain ⟨s2, o, hmove, hpos2⟩ := move_positions s1 a (A ++ [q]) (by simpa using hpos1)
    have hpos2' : s2.getBodyPositions = wrap (step o a) :: a :: A := by
      rw [hpos2]
      have h : (a :: (A ++ [q])).dropLast = a :: A := by
        rw [← List.cons_append, List.dropLast_concat]
      rw [h]
    refine ⟨s1, s2, wrap (step o a), hgrow, hmove, hpos2', ?_, wrap_inGrid _, ?_, ?_, ?_⟩
    · rw [move_length s1 s2 hmove, hlen1]
    · intro hh
      rw [hpos2']
      exact distinctCount_cons_of_not_mem _ _ hh
    · intro hh
      rw [hpos2']
      exact distinctCount_cons_of_mem _ _ hh
    · intro hgrid p hp
      rw [hpos2'] at hp
      rcases List.mem_cons.mp hp with rfl | hmem
      · exact wrap_inGrid _
      · exact hgrid p hmem

theorem grow_then_move_witness :
    (straightGame 500 6).snake.bodyParts ≠ [] ∧
    ∃ (s1 s2 : Snake) (newHead : Position),
      (straightGame 500 6).snake.grow = some s1 ∧ s1.move = some s2 ∧
      s2.getBodyPositions = newHead :: (straightGame 500 6).snake.getBodyPositions ∧
      s2.bodyParts.length = (straightGame 500 6).snake.bodyParts.length + 1 ∧
      newHead.inGrid := by
  obtain ⟨s1, s2, newHead, h1, h2, h3, h4, h5, _⟩ :=
    grow_then_move (straightGame 500 6).snake (by decide)
  exact ⟨by decide, s1, s2, newHead, h1, h2, h3, h4, h5⟩

/-! ## After the game has ended -/

theorem changeOrientation_positions_of_some (s s1 : Snake) (r : Orientation)
    (h : s.changeOrientation r = some s1) :
    s1.getBodyPositions = s.getBodyPositions ∧ s1.bodyParts.length = s.bodyParts.length := by
  cases hb : s.bodyParts with
  | nil =>
    cases hflag : s.directionChanged with
    | true =>
      rw [changeOrientation_of_changed s r hflag] at h
      cases h
      exact ⟨rfl, by rw [hb]⟩
    | false => simp [Snake.changeOrientation, hflag, hb] at h
  | cons head rest =>
    have hne : s.bodyParts ≠ [] := by rw [hb]; simp
    obtain ⟨s2, h2, hpos⟩ := changeOrientation_positions s r hne
    obtain ⟨s3, h3, hlen⟩ := changeOrientation_total s r hne
    rw [h] at h2 h3
    cases h2
    cases h3
    exact ⟨hpos, by rw [hlen, hb]⟩

theorem keydown_cases (g : Game) (key : String) :
    g.keydown key = some g ∨
      ∃ r : Orientation, g.keydown key =
        (g.snake.changeOrientation r).map fun snake => { g with snake := snake } := by
  unfold Game.keydown
  split_ifs
  · exact Or.inr ⟨.up, rfl⟩
  · exact Or.inr ⟨.down, rfl⟩
  · exact Or.inr ⟨.left, rfl⟩
  · exact Or.inr ⟨.right, rfl⟩
  · exact Or.inl rfl

/-- What an orientation request delivered to the game can change: only the snake, and of
the snake neither the positions nor the number of body parts. -/
theorem request_frame (g g1 : Game) (r : Orientation)
    (h : (g.snake.changeOrientation r).map (fun snake => { g with snake := snake }) =
      some g1) :
    g1.gameEnd = g.gameEnd ∧ g1.score = g.score ∧ g1.fruit = g.fruit ∧
    g1.lastRenderTime = g.lastRenderTime ∧
    g1.snake.getBodyPositions = g.snake.getBodyPositions ∧
    g1.snake.bodyParts.length = g.snake.bodyParts.length := by
  simp only [Option.map_eq_some'] at h
  obtain ⟨s1, hco, rfl⟩ := h
  obtain ⟨hpos, hlen⟩ := changeOrientation_positions_of_some g.snake s1 r hco
  exact ⟨rfl, rfl, rfl, rfl, hpos, hlen⟩

/-- Claim C17, as stated, fails on the code. The running game `turningGame` (score 1) ends
by `gameOver()` after a self-collision on its tick at `t = 500`. On the ended game an
`ArrowLeft` key event and a left swipe still change the snake (head orientation and
direction-changed flag), and `endGame()` changes the score from 1 to 0. -/
theorem ended_game_counterexample :
    ∃ (s1 : Snake) (gE : Game),
      turningGame.gameEnd = false ∧ turningGame.snake.move = some s1 ∧
      s1.selfCollision = true ∧
      turningGame.gameLoop 500 [] = some (gE, []) ∧ gE.gameEnd = true ∧ gE.score = 1 ∧
      (∃ g', gE.keydown "ArrowLeft" = some g' ∧ g'.snake ≠ gE.snake) ∧
      (∃ g', gE.swipe "swipeleft" = some g' ∧ g'.snake ≠ gE.snake) ∧
      gE.endGame.score ≠ gE.score := by
  refine ⟨Snake.mk 5 [⟨⟨5, 6⟩, .down⟩, ⟨⟨5, 5⟩, .down⟩, ⟨⟨4, 5⟩, .right⟩, ⟨⟨4, 6⟩, .up⟩,
      ⟨⟨5, 6⟩, .left⟩] .left false,
    { turningGame with
      lastRenderTime := 500
      snake := Snake.mk 5 [⟨⟨5, 6⟩, .down⟩, ⟨⟨5, 5⟩, .down⟩, ⟨⟨4, 5⟩, .right⟩, ⟨⟨4, 6⟩, .up⟩,
        ⟨⟨5, 6⟩, .left⟩] .left false
      gameEnd := true },
    rfl, by decide, by decide, ?_, rfl, rfl, ?_, ?_, by decide⟩
  · rw [gameLoop_of_due turningGame 500 []
      (Snake.mk 5 [⟨⟨5, 6⟩, .down⟩, ⟨⟨5, 5⟩, .down⟩, ⟨⟨4, 5⟩, .right⟩, ⟨⟨4, 6⟩, .up⟩,
        ⟨⟨5, 6⟩, .left⟩] .left false) rfl
      (by norm_num [frameTooEarly, turningGame, SNAKE_SPEED]) (by decide)]
    have hsc : (Snake.mk 5 [⟨⟨5, 6⟩, .down⟩, ⟨⟨5, 5⟩, .down⟩, ⟨⟨4, 5⟩, .right⟩,
        ⟨⟨4, 6⟩, .up⟩, ⟨⟨5, 6⟩, .left⟩] .left false).selfCollision = true := by decide
    rw [if_pos hsc]
  · exact ⟨_, rfl, by decide⟩
  · exact ⟨_, rfl, by decide⟩

/-- Claim C17, amended. Once a game has ended: for every time stamp `gameLoop` returns
with the whole state (snake, fruit, score, last-tick time stamp) unchanged and without
drawing a random number; an orientation-change key or swipe event is still handed to
`changeOrientation`, which may change the head orientation and the direction-changed flag
but leaves the positions and number of the body parts, the fruit, the score, the last-tick
time stamp and the game-end flag unchanged; and `endGame` resets the score to 0, leaving
the snake, the fruit, the last-tick time stamp and the game-end flag unchanged. -/
theorem ended_game (g : Game) (hend : g.gameEnd = true) :
    (∀ (t : ℚ) (rnd : List ℚ), g.gameLoop t rnd = some (g, rnd)) ∧
    (∀ (key : String) (g' : Game), g.keydown key = some g' →
      g'.gameEnd = true ∧ g'.score = g.score ∧ g'.fruit = g.fruit ∧
      g'.lastRenderTime = g.lastRenderTime ∧
      g'.snake.getBodyPositions = g.snake.getBodyPositions ∧
      g'.snake.bodyParts.length = g.snake.bodyParts.length) ∧
    (∀ (type : String) (g' : Game), g.swipe type = some g' →
      g'.gameEnd = true ∧ g'.score = g.score ∧ g'.fruit = g.fruit ∧
      g'.lastRenderTime = g.lastRenderTime ∧
      g'.snake.getBodyPositions = g.snake.getBodyPositions ∧
      g'.snake.bodyParts.length = g.snake.bodyParts.length) ∧
    (g.snake.bodyParts ≠ [] → ∀ event : String,
      (∃ g', g.keydown event = some g') ∧ (∃ g', g.swipe event = some g')) ∧
    g.endGame = { g with score := 0 } := by
  refine ⟨fun t rnd => gameLoop_of_ended g t rnd hend, ?_, ?_, ?_, ?_⟩
  · intro key g' hkey
    rcases keydown_cases g key with h | ⟨r, h⟩
    · rw [h] at hkey
      cases hkey
      exact ⟨hend, rfl, rfl, rfl, rfl, rfl⟩
    · rw [h] at hkey
      obtain ⟨h1, h2, h3, h4, h5, h6⟩ := request_frame g g' r hkey
      exact ⟨by rw [h1, hend], h2, h3, h4, h5, h6⟩
  · intro type g' hswipe
    obtain ⟨h1, h2, h3, h4, h5, h6⟩ := request_frame g g' (swipeDirection type) hswipe
    exact ⟨by rw [h1, hend], h2, h3, h4, h5, h6⟩
  · intro hne event
    constructor
    · rcases keydown_cases g event with h | ⟨r, h⟩
      · exact ⟨g, h⟩
      · obtain ⟨s1, hco, _⟩ := changeOrientation_total g.snake r hne
        exact ⟨_, by rw [h, hco]; rfl⟩
    · obtain ⟨s1, hco, _⟩ := changeOrientation_total g.snake (swipeDirection event) hne
      exact ⟨_, by rw [Game.swipe, hco]; rfl⟩
  · simp [Game.endGame, hend]

theorem ended_game_witness :
    ({ turningGame with gameEnd := true } : Game).gameEnd = true ∧
    ({ turningGame with gameEnd := true } : Game).gameLoop 10000 [] =
      some ({ turningGame with gameEnd := true }, []) ∧
    ({ turningGame with gameEnd := true } : Game).endGame =
      { turningGame with gameEnd := true, score := 0 } :=
  ⟨rfl, (ended_game { turningGame with gameEnd := true } rfl).1 10000 [],
    (ended_game { turningGame with gameEnd := true } rfl).2.2.2.2⟩

/-! ## The recorded tail orientation -/

/-- Claim C18, as stated, fails on the code: with one body part `move()` skips the update.
The snake `new Snake(1, 'left', {x: 3, y: 4})` turned up and moved has its only part, the
tail, heading up, while the recorded last-tail-orientation is still left. -/
theorem lastTailOrientation_counterexample :
    ∃ (s0 s1 s2 : Snake) (tail : Segment),
      Snake.new 1 .left ⟨3, 4⟩ = some s0 ∧ s0.changeOrientation .up = some s1 ∧
      s1.bodyParts ≠ [] ∧ s1.move = some s2 ∧
      s2.bodyParts.getLast? = some tail ∧ tail.orientation = .up ∧
      s2.lastTailOrientation = .left ∧ s2.lastTailOrientation ≠ tail.orientation :=
  ⟨Snake.mk 1 [⟨⟨3, 4⟩, .left⟩] .left false, Snake.mk 1 [⟨⟨3, 4⟩, .up⟩] .left true,
    Snake.mk 1 [⟨⟨3, 3⟩, .up⟩] .left false, ⟨⟨3, 3⟩, .up⟩,
    by decide, by decide, by decide, by decide, by decide, rfl, rfl, by decide⟩

theorem getD_append_singleton (L : List Segment) (last d : Segment) (hL : L ≠ []) :
    (L ++ [last]).getD ((L ++ [last]).length - 2) d = L.getLast hL := by
  have hlen : 0 < L.length := List.length_pos.mpr hL
  have hidx : (L ++ [last]).length - 2 = L.length - 1 := by
    simp only [List.length_append, List.length_singleton]
    omega
  rw [hidx, List.getD_eq_getElem?_getD, List.getElem?_append_left (by omega),
    List.getLast_eq_getElem, List.getElem?_eq_getElem (by omega)]
  rfl

/-- Claim C18, amended. For a snake with at least two body parts, `move()` returns and the
recorded last-tail-orientation then equals the orientation of the tail, the last part of
the body after the move. For a snake with exactly one body part `move()` leaves the
recorded last-tail-orientation as it was. -/
theorem move_lastTailOrientation (s : Snake) :
    (2 ≤ s.bodyParts.length →
      ∃ (s1 : Snake) (tail : Segment), s.move = some s1 ∧
        s1.bodyParts.getLast? = some tail ∧ s1.lastTailOrientation = tail.orientation) ∧
    (s.bodyParts.length = 1 →
      ∃ s1 : Snake, s.move = some s1 ∧ s1.lastTailOrientation = s.lastTailOrientation) := by
  constructor
  · intro hlen
    cases hb : s.bodyParts with
    | nil => simp [hb] at hlen
    | cons head rest =>
      have hrest : rest ≠ [] := by
        intro h
        simp [hb, h] at hlen
      have hsplit : head :: rest = (head :: rest.dropLast) ++ [rest.getLast hrest] := by
        rw [List.cons_append, List.dropLast_append_getLast]
      have hL : head :: rest.dropLast ≠ [] := List.cons_ne_nil _ _
      refine ⟨_, (head :: rest.dropLast).getLast hL, move_eq_some s head rest hb, ?_, ?_⟩
      · have hdrop : (head :: rest).dropLast = head :: rest.dropLast := by
          rw [hsplit, List.dropLast_concat]
        simp only [hdrop, List.dropLast_cons₂, List.getLast?_cons_cons]
        exact List.getLast?_eq_getLast _ hL
      · have hlen2 : (head :: rest).length > 1 := by
          rw [hb] at hlen
          exact hlen
        simp only [hlen2, if_true]
        have h := getD_append_singleton (head :: rest.dropLast) (rest.getLast hrest) head hL
        rw [← hsplit] at h
        rw [h]
  · intro hlen
    cases hb : s.bodyParts with
    | nil => simp [hb] at hlen
    | cons head rest =>
      have hrest : rest = [] := by
        cases rest with
        | nil => rfl
        | cons a l => simp [hb] at hlen
      subst hrest
      exact ⟨_, move_eq_some s head [] hb, by simp⟩

theorem move_lastTailOrientation_witness :
    2 ≤ turningSnake.bodyParts.length ∧
    ∃ (s1 : Snake) (tail : Segment), turningSnake.move = some s1 ∧
      s1.bodyParts.getLast? = some tail ∧ s1.lastTailOrientation = tail.orientation :=
  ⟨by decide, (move_lastTailOrientation turningSnake).1 (by decide)⟩

/-! ## No reversal between two moves -/

theorem mapM_some_eq {α β : Type} (f : α → Option β) (g : α → β) (l : List α)
    (h : ∀ a, f a = some (g a)) : l.mapM f = some (l.map g) := by
  induction l with
  | nil => rfl
  | cons a l ih =>
    rw [List.mapM_cons, h a, ih]
    rfl

theorem new_eq_of_isDirection (n : Nat) (o : Orientation) (p : Position)
    (ho : o.isDirection) :
    ∃ (s0 : Snake) (rest : List Segment), Snake.new (n + 1) o p = some s0 ∧
      s0.bodyParts = ⟨p, o⟩ :: rest ∧ s0.directionChanged = false := by
  obtain ⟨g, hg, hg0⟩ : ∃ g : Nat → Position,
      (∀ i, partPosition o p i = some (g i)) ∧ g 0 = p := by
    rcases ho with h | h | h | h <;> subst h
    · exact ⟨fun i => ⟨p.x, p.y + i⟩, fun i => rfl, by simp⟩
    · exact ⟨fun i => ⟨p.x, p.y - i⟩, fun i => rfl, by simp⟩
    · exact ⟨fun i => ⟨p.x + i, p.y⟩, fun i => rfl, by simp⟩
    · exact ⟨fun i => ⟨p.x - i, p.y⟩, fun i => rfl, by simp⟩
  have hmap := mapM_some_eq
    (fun i => (partPosition o p i).map
      (fun q => ({ position := q, orientation := o } : Segment)))
    (fun i => ({ position := g i, orientation := o } : Segment)) (List.range (n + 1))
    (fun i => by simp [hg])
  refine ⟨Snake.mk (n + 1)
      ((List.range (n + 1)).map (fun i => ({ position := g i, orientation := o } : Segment)))
      o false,
    (List.range n).map (fun i => ({ position := g (i + 1), orientation := o } : Segment)),
    by rw [Snake.new, hmap]; rfl, ?_, rfl⟩
  simp [List.range_succ_eq_map, hg0, Function.comp_def]

theorem reverse_ne_self (o : Orientation) (ho : o.isDirection) : o ≠ o.reverse := by
  rcases ho with h | h | h | h <;> subst h <;> decide

/-- After the requests of one tick and the next `move()`, the head has travelled from the
cell of the old head in a direction that is not the reverse of the old heading. -/
theorem requests_then_move (s : Snake) (head : Segment) (rest : List Segment)
    (requests : List Orientation) (hbody : s.bodyParts = head :: rest)
    (hflag : s.directionChanged = false) (ho : head.orientation.isDirection)
    (hreq : ∀ r ∈ requests, r.isDirection) :
    ∃ (s2 s3 : Snake) (h3 : Segment),
      s.calls (requests.map Call.changeOrientation) = some s2 ∧ s2.move = some s3 ∧
      s3.bodyParts.head? = some h3 ∧
      h3.position = wrap (step h3.orientation head.position) ∧
      h3.orientation.isDirection ∧ h3.orientation ≠ head.orientation.reverse := by
  have hcalls := requests_eq s head rest hbody hflag ho requests
  obtain ⟨o2, ho2dir, ho2ne, hs2⟩ : ∃ o2 : Orientation, o2.isDirection ∧
      o2 ≠ head.orientation.reverse ∧
      ∃ s2 : Snake, s.calls (requests.map Call.changeOrientation) = some s2 ∧
        s2.bodyParts = { head with orientation := o2 } :: rest := by
    cases hfind : requests.find? (fun r => decide (r ≠ head.orientation.reverse)) with
    | none =>
      rw [hfind] at hcalls
      exact ⟨head.orientation, ho, reverse_ne_self _ ho, s, hcalls, by rw [hbody]⟩
    | some r =>
      rw [hfind] at hcalls
      have hr := List.find?_some hfind
      exact ⟨r, hreq r (List.mem_of_find?_eq_some hfind), by simpa using hr, _, hcalls, rfl⟩
  obtain ⟨s2, hs2calls, hs2body⟩ := hs2
  obtain ⟨s3, hmove, hparts⟩ := move_bodyParts s2 _ rest hs2body
  exact ⟨s2, s3, _, hs2calls, hmove, by rw [hparts]; rfl, rfl, ho2dir, ho2ne⟩

/-- Claim C19. Take a snake with at least one body part whose head orientation is one of
up, down, left, right, and any sequence of `changeOrientation` requests, each one of the
four orientations, issued between two consecutive `move()` calls. Both moves return; the
first takes the head one step in the head orientation `d1`, the second one step in a
direction `d2` among the four, and `d2` is not the reverse of `d1`. Likewise, for a snake
just constructed with orientation `o` and at least one part, the first move after any
such requests is one step from the constructed head cell in a direction that is not the
reverse of `o`. -/
theorem no_reversal_between_moves (s : Snake) (head : Segment) (rest : List Segment)
    (requests : List Orientation) (n : Nat) (o : Orientation) (p : Position)
    (hbody : s.bodyParts = head :: rest) (ho : head.orientation.isDirection)
    (hreq : ∀ r ∈ requests, r.isDirection) (hn : 1 ≤ n) (hcons : o.isDirection) :
    (∃ (s1 s2 s3 : Snake) (h1 h3 : Segment),
      s.move = some s1 ∧ s1.bodyParts.head? = some h1 ∧
      h1.orientation = head.orientation ∧
      h1.position = wrap (step h1.orientation head.position) ∧
      s1.calls (requests.map Call.changeOrientation) = some s2 ∧ s2.move = some s3 ∧
      s3.bodyParts.head? = some h3 ∧
      h3.position = wrap (step h3.orientation h1.position) ∧
      h3.orientation.isDirection ∧ h3.orientation ≠ h1.orientation.reverse) ∧
    (∃ (s0 s2 s3 : Snake) (h3 : Segment),
      Snake.new n o p = some s0 ∧
      s0.calls (requests.map Call.changeOrientation) = some s2 ∧ s2.move = some s3 ∧
      s3.bodyParts.head? = some h3 ∧
      h3.position = wrap (step h3.orientation p) ∧
      h3.orientation.isDirection ∧ h3.orientation ≠ o.reverse) := by
  constructor
  · obtain ⟨s1, hmove, hparts⟩ := move_bodyParts s head rest hbody
    have hflag := move_directionChanged s s1 hmove
    obtain ⟨s2, s3, h3, hcalls, hmove2, hhead, hpos, hdir, hne⟩ :=
      requests_then_move s1 _ _ requests hparts hflag ho hreq
    exact ⟨s1, s2, s3,
      { position := wrap (step head.orientation head.position)
        orientation := head.orientation },
      h3, hmove, by rw [hparts]; rfl, rfl, rfl, hcalls, hmove2, hhead, hpos, hdir, hne⟩
  · obtain ⟨m, rfl⟩ : ∃ m, n = m + 1 := ⟨n - 1, by omega⟩
    obtain ⟨s0, rest0, hnew, hbody0, hflag0⟩ := new_eq_of_isDirection m o p hcons
    obtain ⟨s2, s3, h3, hcalls, hmove2, hhead, hpos, hdir, hne⟩ :=
      requests_then_move s0 ⟨p, o⟩ rest0 requests hbody0 hflag0 hcons hreq
    exact ⟨s0, s2, s3, h3, hnew, hcalls, hmove2, hhead, hpos, hdir, hne⟩

theorem no_reversal_between_moves_witness :
    newGameSnake.bodyParts = ⟨⟨7, 4⟩, .left⟩ ::
        [⟨⟨8, 4⟩, .left⟩, ⟨⟨9, 4⟩, .left⟩, ⟨⟨10, 4⟩, .left⟩] ∧
    (∀ r ∈ [Orientation.right, Orientation.up, Orientation.right], r.isDirection) ∧
    ∃ (s1 s2 s3 : Snake) (h1 h3 : Segment),
      newGameSnake.move = some s1 ∧ s1.bodyParts.head? = some h1 ∧
      s1.calls ([Orientation.right, Orientation.up, Orientation.right].map
        Call.changeOrientation) = some s2 ∧
      s2.move = some s3 ∧ s3.bodyParts.head? = some h3 ∧
      h3.orientation ≠ h1.orientation.reverse := by
  obtain ⟨⟨s1, s2, s3, h1, h3, a1, a2, _, _, a5, a6, a7, _, _, a10⟩, _⟩ :=
    no_reversal_between_moves newGameSnake ⟨⟨7, 4⟩, .left⟩
      [⟨⟨8, 4⟩, .left⟩, ⟨⟨9, 4⟩, .left⟩, ⟨⟨10, 4⟩, .left⟩]
      [Orientation.right, Orientation.up, Orientation.right] 4 .left ⟨7, 4⟩ rfl
      (by decide) (by decide) (by decide) (by decide)
  exact ⟨rfl, by decide, s1, s2, s3, h1, h3, a1, a2, a5, a6, a7, a10⟩

/-! ## The fruit stays off the snake -/

theorem selfCollisionLoop_mem (head : Segment) (parts : List Segment)
    (h : selfCollisionLoop head parts = true) :
    ∃ part ∈ parts, part.position = head.position := by
  obtain ⟨j, part, hj, hx, hy⟩ := (selfCollisionLoop_iff head parts).mp h
  refine ⟨part, List.getElem?_mem hj, ?_⟩
  cases hp : part.position
  cases hh : head.position
  simp_all

/-- Claim C20. In a running game state whose fruit position is not the position of any
body part of the (non-empty) snake, after one complete simulation tick the fruit position
is again not the position of any body part: whether the tick ends the game by
self-collision, eats the fruit and respawns it (on any random outcomes on which the
respawn returns), or does neither. The tick returns unless the fruit was eaten and the
respawn does not return on the given outcomes. -/
theorem fruit_stays_off_snake (g : Game) (t : ℚ) (rnd : List ℚ)
    (hdue : g.performsTick t = true) (hne : g.snake.bodyParts ≠ [])
    (hoff : ∀ part ∈ g.snake.bodyParts, g.fruit.position ≠ part.position) :
    (∀ (g' : Game) (rnd' : List ℚ), g.gameLoop t rnd = some (g', rnd') →
      ∀ part ∈ g'.snake.bodyParts, g'.fruit.position ≠ part.position) ∧
    (g.gameLoop t rnd = none →
      ∃ s1 s2 : Snake, g.snake.move = some s1 ∧ s1.selfCollision = false ∧
        s1.getHeadPosition = some g.fruit.position ∧ s1.grow = some s2 ∧
        g.fruit.changeFruit s2.getBodyPositions rnd = none) := by
  obtain ⟨hrun, hearly⟩ := (performsTick_iff g t).mp hdue
  cases hb : g.snake.bodyParts with
  | nil => exact absurd hb hne
  | cons head rest =>
    obtain ⟨s1, hmove, hparts⟩ := move_bodyParts g.snake head rest hb
    have hloop := gameLoop_of_due g t rnd s1 hrun hearly hmove
    obtain ⟨s2, hgrow, _, _⟩ := grow_total s1 (move_ne_nil _ _ hmove)
    have hhead : s1.getHeadPosition = some (wrap (step head.orientation head.position)) := by
      simp [Snake.getHeadPosition, hparts]
    have hold : ∀ part ∈ (head :: rest).dropLast, g.fruit.position ≠ part.position :=
      fun part hpart => hoff part (by rw [hb]; exact List.dropLast_subset _ hpart)
    rw [hhead, hgrow] at hloop
    simp only [Option.some_bind] at hloop
    by_cases hsc : s1.selfCollision = true
    · -- the game ends: the fruit is where it was, the new head is on an old part
      rw [if_pos hsc] at hloop
      constructor
      · intro g' rnd' hret
        rw [hloop] at hret
        cases hret
        intro part hpart
        have hpart' : part ∈ s1.bodyParts := hpart
        rw [hparts] at hpart'
        rcases List.mem_cons.mp hpart' with rfl | hmem
        · have hcol : selfCollisionLoop
              { position := wrap (step head.orientation head.position)
                orientation := head.orientation } (head :: rest).dropLast = true := by
            simpa [Snake.selfCollision, hparts] using hsc
          obtain ⟨other, hother, hpos⟩ := selfCollisionLoop_mem _ _ hcol
          intro hfruit
          exact hold other hother (hfruit.trans hpos.symm)
        · exact hold part hmem
      · intro hnone
        rw [hloop] at hnone
        cases hnone
    · rw [if_neg hsc] at hloop
      have hsc' : s1.selfCollision = false := by simpa using hsc
      by_cases heat : checkFruitCollision (wrap (step head.orientation head.position))
          g.fruit.position = true
      · -- the fruit is eaten and respawned against the grown body
        rw [if_pos heat] at hloop
        have hpos : wrap (step head.orientation head.position) = g.fruit.position :=
          (checkFruitCollision_iff _ _).mp heat
        constructor
        · intro g' rnd' hret
          rw [hloop] at hret
          simp only [Option.map_eq_some'] at hret
          obtain ⟨⟨fruit1, rnd1⟩, hcf, heq⟩ := hret
          cases heq
          intro part hpart hfruit
          have hfree := (changeFruit_sound _ _ _ _ _ hcf).2
          exact hfree (by
            simp only [Snake.getBodyPositions, List.mem_map]
            exact ⟨part, hpart, hfruit.symm⟩)
        · intro hnone
          rw [hloop] at hnone
          exact ⟨s1, s2, hmove, hsc', by rw [hhead, hpos], hgrow, by simpa using hnone⟩
      · -- neither: the fruit is where it was and the new head is not on it
        rw [if_neg heat] at hloop
        constructor
        · intro g' rnd' hret
          rw [hloop] at hret
          cases hret
          intro part hpart
          have hpart' : part ∈ s1.bodyParts := hpart
          rw [hparts] at hpart'
          rcases List.mem_cons.mp hpart' with rfl | hmem
          · intro hfruit
            exact heat ((checkFruitCollision_iff _ _).mpr hfruit.symm)
          · exact hold part hmem
        · intro hnone
          rw [hloop] at hnone
          cases hnone

theorem fruit_stays_off_snake_witness :
    (newGameWithFruitAt ⟨6, 4⟩).performsTick 500 = true ∧
    (newGameWithFruitAt ⟨6, 4⟩).snake.bodyParts ≠ [] ∧
    (∀ part ∈ (newGameWithFruitAt ⟨6, 4⟩).snake.bodyParts,
      (newGameWithFruitAt ⟨6, 4⟩).fruit.position ≠ part.position) ∧
    ∃ g' : Game,
      (newGameWithFruitAt ⟨6, 4⟩).gameLoop 500 [6 / 10, 4 / 10, 3 / 10, 2 / 10, 0] =
        some (g', []) ∧
      g'.fruit.position = ⟨3, 2⟩ ∧
      ∀ part ∈ g'.snake.bodyParts, g'.fruit.position ≠ part.position := by
  have hdue : (newGameWithFruitAt ⟨6, 4⟩).performsTick 500 = true := by
    norm_num [Game.performsTick, frameTooEarly, newGameWithFruitAt, SNAKE_SPEED]
  have hret : (newGameWithFruitAt ⟨6, 4⟩).gameLoop 500 [6 / 10, 4 / 10, 3 / 10, 2 / 10, 0] =
      some ({ newGameWithFruitAt ⟨3, 2⟩ with
        lastRenderTime := 500
        snake := Snake.mk 5 [⟨⟨6, 4⟩, .left⟩, ⟨⟨7, 4⟩, .left⟩, ⟨⟨8, 4⟩, .left⟩,
          ⟨⟨9, 4⟩, .left⟩, ⟨⟨9, 4⟩, .left⟩] .left false
        score := 1 }, []) := by
    rw [gameLoop_of_due _ _ _ (straightGame 500 6).snake rfl
      (by norm_num [frameTooEarly, newGameWithFruitAt, SNAKE_SPEED]) (by decide)]
    have hsc : (straightGame 500 6).snake.selfCollision = false := by decide
    have hhead : (straightGame 500 6).snake.getHeadPosition = some ⟨6, 4⟩ := by decide
    have hgrow : (straightGame 500 6).snake.grow = some (Snake.mk 5
        [⟨⟨6, 4⟩, .left⟩, ⟨⟨7, 4⟩, .left⟩, ⟨⟨8, 4⟩, .left⟩, ⟨⟨9, 4⟩, .left⟩,
          ⟨⟨9, 4⟩, .left⟩] .left false) := by decide
    have hcheck : checkFruitCollision ⟨6, 4⟩ (newGameWithFruitAt ⟨6, 4⟩).fruit.position
        = true := by decide
    rw [hsc, hhead]
    simp only [Bool.false_eq_true, if_false, Option.some_bind, hcheck, if_true, hgrow]
    norm_num [newGameWithFruitAt, Snake.getBodyPositions, Fruit.changeFruit,
      Fruit.randomPosition, changeFruitLoop, overlapsWithSnake, randomCell,
      Fruit.randomFruitName, fruitNameAt, FRUIT_NAMES]
  exact ⟨hdue, by decide, by decide, _, hret, rfl,
    (fruit_stays_off_snake (newGameWithFruitAt ⟨6, 4⟩) 500
      [6 / 10, 4 / 10, 3 / 10, 2 / 10, 0] hdue (by decide) (by decide)).1 _ _ hret⟩

end SnakeGame
